import Mathlib

/-!
Shallow embedding of the MediClean pickup-request subsystem: the pickup request
schema (`src/schema/pickupRequestSchema.js`), the pickup repository
(`src/repository/pickupRepository.js` over `src/repository/baseRepository.js`),
the user-repository cache helpers (`src/repository/userRepository.js`), the
pickup service (`src/services/pickupservice.js`), the shared validators
(`src/utils/validation.js`), the error classes (`src/utils/errors.js`) and the
standalone pickup validators (pickup validation module).

Modelling conventions:
* JS strings are `String`; JS numbers are `Int` (timestamps, coordinates,
  distances) or `Rat` (volumes, averages); statuses, priorities and waste
  types stay strings, as in the source.
* A MongoDB collection is a `List` of documents; `findOne` is `List.find?`.
* A JS `Map` is an association list kept in insertion order: `set` of a
  present key overwrites in place, `set` of a fresh key appends, iteration
  starts at the head; this matches JS Map semantics.
* Thrown errors are `Except Err` results; the error classes of
  `utils/errors.js` become the `Err` values below.  Functions that mutate the
  in-memory cache return the mutated cache beside the `Except` result, because
  in the source those mutations survive a throw.
* `Date.now()` and `new Date()` become an explicit `now : Int` parameter
  (milliseconds); ObjectId generation for a new document is modelled by a
  caller-supplied fresh id.
-/

namespace MediClean

/-! ### Error classes (`src/utils/errors.js`)

Every error class constructor takes exactly one `message` argument
(`ValidationError`, `NotFoundError` set their status code; `InternalError`
additionally stores an original error, which the model drops).  In particular
`new ValidationError(msg, extra)` discards `extra`. -/

inductive ErrName where
  | validation
  | notFound
  | internal
  | mongooseError
  deriving DecidableEq, Repr

structure Err where
  name : ErrName
  message : String
  statusCode : Nat
  deriving DecidableEq, Repr

def ValidationError (message : String) : Err := ⟨ErrName.validation, message, 400⟩

def NotFoundError (message : String) : Err := ⟨ErrName.notFound, message, 404⟩

def InternalError (message : String) : Err := ⟨ErrName.internal, message, 500⟩

/-- Boolean success test for an `Except` result (models "did not throw"). -/
def exceptOk {ε α : Type} : Except ε α → Bool
  | Except.ok _ => true
  | Except.error _ => false

/-! ### Enumerations shared across the sources -/

def pickupStatuses : List String := ["pending", "assigned", "collected", "cancelled"]

def wasteTypes : List String := ["sharps", "biohazard", "expired_meds", "others"]

def validPriorities : List String := ["low", "medium", "high", "urgent"]

/-! ### The status state machine

`pickupRequestSchema.methods.validateStatusTransition` throws unless the
transition table `validTransitions` lists `newStatus` under the current
status; the standalone validator of the pickup validation module has the same
table but returns a `ValidationResult` instead of throwing. -/

namespace PickupRequestSchema

def validTransitions (s : String) : Option (List String) :=
  if s = "pending" then some ["assigned", "cancelled"]
  else if s = "assigned" then some ["collected", "cancelled"]
  else if s = "collected" then some []
  else if s = "cancelled" then some []
  else none

def validateStatusTransition (current newStatus : String) : Except String Unit :=
  match validTransitions current with
  | some allowed =>
      if allowed.contains newStatus then Except.ok ()
      else Except.error ("Invalid status transition from " ++ current ++ " to " ++ newStatus)
  | none => Except.error ("Invalid status transition from " ++ current ++ " to " ++ newStatus)

end PickupRequestSchema

structure ValidationResult where
  isValid : Bool
  message : Option String
  deriving DecidableEq, Repr

def createValidationResult (isValid : Bool) (message : Option String) : ValidationResult :=
  ⟨isValid, message⟩

namespace PickupValidation

def validTransitions (s : String) : Option (List String) :=
  if s = "pending" then some ["assigned", "cancelled"]
  else if s = "assigned" then some ["collected", "cancelled"]
  else if s = "collected" then some []
  else if s = "cancelled" then some []
  else none

def validateStatusTransition (currentStatus newStatus : String) : ValidationResult :=
  match validTransitions currentStatus with
  | some allowed =>
      if allowed.contains newStatus then createValidationResult true none
      else createValidationResult false
        (some ("Cannot transition from " ++ currentStatus ++ " to " ++ newStatus))
  | none => createValidationResult false
      (some ("Cannot transition from " ++ currentStatus ++ " to " ++ newStatus))

end PickupValidation

/-- The four allowed edges of the status state machine. -/
def allowedTransitionPairs (s t : String) : Prop :=
  (s, t) = ("pending", "assigned") ∨ (s, t) = ("pending", "cancelled") ∨
  (s, t) = ("assigned", "collected") ∨ (s, t) = ("assigned", "cancelled")

/-! ### JS Map model and the in-memory caches

Both `pickupRepository.js` (methods `setCacheValue` / `getCacheValue`) and
`userRepository.js` (module-level `setCacheValue` / `getCacheValue`) keep an
identical bounded cache: a JS `Map` from string keys to
`(value, timestamp)` records, `MAX_CACHE_SIZE = 1000`,
`CACHE_TTL = 5 * 60 * 1000` ms.  The model is generic in the cached value. -/

abbrev JsMap (α : Type) : Type := List (String × α)

structure TimedVal (α : Type) where
  value : α
  timestamp : Int
  deriving DecidableEq, Repr

def jsMapHasKey {α : Type} (m : JsMap α) (k : String) : Bool :=
  m.any (fun p => p.1 == k)

/-- `Map.prototype.set`: overwrite in place when the key is present, append
otherwise (JS Maps keep insertion order, and re-setting a key keeps its
position). -/
def jsMapSet {α : Type} (m : JsMap α) (k : String) (v : α) : JsMap α :=
  if jsMapHasKey m k then m.map (fun p => if p.1 == k then (k, v) else p)
  else m ++ [(k, v)]

/-- `Map.prototype.delete` (keys are unique, so filtering is equivalent). -/
def jsMapDelete {α : Type} (m : JsMap α) (k : String) : JsMap α :=
  m.filter (fun p => !(p.1 == k))

/-- `Map.prototype.get`. -/
def jsMapGet {α : Type} (m : JsMap α) (k : String) : Option α :=
  (m.find? (fun p => p.1 == k)).map Prod.snd

/-- `map.keys().next().value`: the first key in insertion order. -/
def jsMapFirstKey {α : Type} (m : JsMap α) : Option String :=
  m.head?.map Prod.fst

def CACHE_TTL : Int := 5 * 60 * 1000

def MAX_CACHE_SIZE : Nat := 1000

/-- The eviction step of `setCacheValue`: when the map already holds
`MAX_CACHE_SIZE` entries, delete the first (oldest-inserted) key.  (On an
empty map `keys().next().value` is `undefined` and the delete is a no-op.) -/
def setCacheEvict {α : Type} (cache : JsMap (TimedVal α)) : JsMap (TimedVal α) :=
  if MAX_CACHE_SIZE ≤ cache.length then
    match jsMapFirstKey cache with
    | some k0 => jsMapDelete cache k0
    | none => cache
  else cache

/-- `setCacheValue(key, value)`: evict if full, then set
`(value, timestamp: Date.now())`. -/
def setCacheValue {α : Type} (cache : JsMap (TimedVal α)) (key : String) (value : α)
    (now : Int) : JsMap (TimedVal α) :=
  jsMapSet (setCacheEvict cache) key ⟨value, now⟩

/-- `getCacheValue(key)`: miss on an absent key; delete and miss on an entry
strictly older than `CACHE_TTL`; hit otherwise.  Returns the result together
with the possibly mutated map. -/
def getCacheValue {α : Type} (cache : JsMap (TimedVal α)) (key : String) (now : Int) :
    Option α × JsMap (TimedVal α) :=
  match jsMapGet cache key with
  | none => (none, cache)
  | some cached =>
      if CACHE_TTL < now - cached.timestamp then (none, jsMapDelete cache key)
      else (some cached.value, cache)

/-- An arbitrary interleaving of cache operations, for stating the size bound. -/
inductive CacheOp (α : Type) where
  | set (key : String) (value : α) (now : Int)
  | get (key : String) (now : Int)

def applyCacheOp {α : Type} (m : JsMap (TimedVal α)) : CacheOp α → JsMap (TimedVal α)
  | CacheOp.set k v t => setCacheValue m k v t
  | CacheOp.get k t => (getCacheValue m k t).2

def runCacheOps {α : Type} (ops : List (CacheOp α)) : JsMap (TimedVal α) :=
  ops.foldl applyCacheOp []

/-! ### Pickup request documents and the MongoDB collection

Only the fields the verified operations read or write are modelled.  A
collection is the list of its documents; `updateOne` / `findByIdAndUpdate`
match on `_id`.  Timestamps are integer milliseconds, volumes are rationals. -/

structure StatusEntry where
  status : String
  note : Option String
  updatedAt : Int
  deriving DecidableEq, Repr

structure Pickup where
  id : String
  clinicId : String
  collectorId : Option String
  wasteType : String
  volumeKg : Rat
  priority : String
  status : String
  statusHistory : List StatusEntry
  isEmergency : Bool
  requestedAt : Int
  collectedAt : Option Int
  lastModifiedAt : Option Int
  isDeleted : Bool
  deriving DecidableEq, Repr

abbrev Store := List Pickup

/-- `findOne({_id: id, isDeleted: {$ne: true}})`. -/
def storeFindActive (store : Store) (id : String) : Option Pickup :=
  store.find? (fun p => p.id == id && !p.isDeleted)

/-- Lookup by `_id` only, as `findByIdAndUpdate` and `updateOne` filters do. -/
def storeFindAny (store : Store) (id : String) : Option Pickup :=
  store.find? (fun p => p.id == id)

def storeReplace (store : Store) (doc : Pickup) : Store :=
  store.map (fun p => if p.id == doc.id then doc else p)

abbrev PickupCache := JsMap (TimedVal Pickup)

/-- JS truthiness of an optional string: `undefined` and `""` are falsy. -/
def optTruthy : Option String → Bool
  | none => false
  | some s => s != ""

def validateWasteType (t : String) : Bool := wasteTypes.contains t

def validateStatus (s : String) : Bool := pickupStatuses.contains s

/-- `PickupRepository.findById`: serve from the cache when fresh, otherwise
read the store, throw `NotFoundError` when absent, and cache the result.
Returns the mutated cache beside the result (cache mutations survive a
throw in the source). -/
def repoFindById (cache : PickupCache) (store : Store) (now : Int) (id : String) :
    PickupCache × Except Err Pickup :=
  match getCacheValue cache ("pickup:" ++ id) now with
  | (some cached, cache1) => (cache1, Except.ok cached)
  | (none, cache1) =>
      match storeFindActive store id with
      | none => (cache1, Except.error (NotFoundError "Pickup request not found"))
      | some request => (setCacheValue cache1 ("pickup:" ++ id) request now, Except.ok request)

/-! ### `PickupRepository.update` over `BaseRepository.update` -/

/-- The update object built by `PickupRepository.update` (and, through the
spread of the caller data, by `updatePriority`).  `statusNote` is spread into
the update but the schema has no such path, so Mongoose strict mode drops it;
`collectedAt` is set by the repository when the target status is collected. -/
structure UpdateData where
  status : Option String
  wasteType : Option String
  volumeKg : Option Rat
  collectorId : Option String
  priority : Option String
  statusNote : Option String
  statusHistory : Option (List StatusEntry)
  isEmergency : Option Bool
  collectedAt : Option Int
  deriving DecidableEq, Repr

def emptyUpdate : UpdateData := ⟨none, none, none, none, none, none, none, none, none⟩

/-- `$set` of the provided paths onto a document. -/
def applyUpdateData (p : Pickup) (u : UpdateData) : Pickup :=
  { p with
    status := u.status.getD p.status
    wasteType := u.wasteType.getD p.wasteType
    volumeKg := u.volumeKg.getD p.volumeKg
    collectorId := match u.collectorId with | some c => some c | none => p.collectorId
    priority := u.priority.getD p.priority
    statusHistory := u.statusHistory.getD p.statusHistory
    isEmergency := u.isEmergency.getD p.isEmergency
    collectedAt := match u.collectedAt with | some t => some t | none => p.collectedAt }

/-- `runValidators: true`: the schema enum/bound validators on the paths the
update sets. -/
def updateValidators (u : UpdateData) : Bool :=
  (match u.status with | some s => pickupStatuses.contains s | none => true) &&
  (match u.wasteType with | some w => wasteTypes.contains w | none => true) &&
  (match u.priority with | some pr => validPriorities.contains pr | none => true) &&
  (match u.volumeKg with | some v => decide (0 ≤ v) && decide (v ≤ 1000) | none => true)

/-- A Mongoose validation error raised by `runValidators`; it is not an
instance of the application error classes. -/
def MongooseValidationError (message : String) : Err := ⟨ErrName.mongooseError, message, 500⟩

/-- `BaseRepository.update`: `findByIdAndUpdate(id, update, {new: true,
runValidators: true})`; throws `NotFoundError` when no document has the id. -/
def baseUpdate (store : Store) (id : String) (u : UpdateData) : Except Err (Store × Pickup) :=
  match storeFindAny store id with
  | none => Except.error (NotFoundError "PickupRequest not found")
  | some doc =>
      if updateValidators u then
        Except.ok (storeReplace store (applyUpdateData doc u), applyUpdateData doc u)
      else Except.error (MongooseValidationError "PickupRequest validation failed")

/-- JS-falsy-aware check `data.status && !this.validateStatus(data.status)`. -/
def optStatusInvalid (o : Option String) : Bool :=
  match o with
  | some s => s != "" && !(validateStatus s)
  | none => false

/-- `data.wasteType && !this.validateWasteType(data.wasteType)`. -/
def optWasteTypeInvalid (o : Option String) : Bool :=
  match o with
  | some w => w != "" && !(validateWasteType w)
  | none => false

/-- `data.volumeKg && data.volumeKg <= 0` (`0` itself is falsy). -/
def optVolumeInvalid (o : Option Rat) : Bool :=
  match o with
  | some v => v != 0 && decide (v ≤ 0)
  | none => false

/-- The update object built by `PickupRepository.update`: the caller data,
the extended status history when a status is given, and `collectedAt` when
the target status is collected. -/
def buildUpdateDoc (data : UpdateData) (request : Pickup) (now : Int) : UpdateData :=
  { data with
    statusHistory :=
      if optTruthy data.status then
        some (request.statusHistory ++ [⟨data.status.getD "", data.statusNote, now⟩])
      else data.statusHistory
    collectedAt := if data.status == some "collected" then some now else data.collectedAt }

/-- `PickupRepository.update`. -/
def repoUpdate (cache : PickupCache) (store : Store) (now : Int) (id : String)
    (data : UpdateData) : PickupCache × Except Err (Store × Pickup) :=
  if optStatusInvalid data.status then
    (cache, Except.error (ValidationError "Invalid status"))
  else if optWasteTypeInvalid data.wasteType then
    (cache, Except.error (ValidationError "Invalid waste type"))
  else if optVolumeInvalid data.volumeKg then
    (cache, Except.error (ValidationError "Volume must be a positive number"))
  else
    match repoFindById cache store now id with
    | (cache1, Except.error e) => (cache1, Except.error e)
    | (cache1, Except.ok request) =>
        if optTruthy data.status && request.status == "collected"
            && data.status != some "collected" then
          (cache1, Except.error (ValidationError "Cannot change status of collected requests"))
        else if optTruthy data.status && request.status == "cancelled"
            && data.status != some "cancelled" then
          (cache1, Except.error (ValidationError "Cannot change status of cancelled requests"))
        else if optTruthy data.status && data.status == some "assigned"
            && !(optTruthy data.collectorId) then
          (cache1, Except.error (ValidationError "Collector ID required for assigned status"))
        else
          match baseUpdate store id (buildUpdateDoc data request now) with
          | Except.error e => (cache1, Except.error e)
          | Except.ok (store1, doc) =>
              (jsMapDelete cache1 ("pickup:" ++ id), Except.ok (store1, doc))

/-! ### Bulk operations -/

structure BulkStatusUpdate where
  id : Option String
  status : Option String
  note : Option String
  deriving DecidableEq, Repr

structure BulkAssignment where
  pickupId : Option String
  collectorId : Option String
  note : Option String
  deriving DecidableEq, Repr

/-- One `updateOne` entry pushed onto `bulkOps`: `$set` of the status (and of
the collector for assignments) plus `lastModifiedAt`, and `$push` of a
status-history entry. -/
structure BulkOp where
  filterId : String
  setStatus : String
  setCollectorId : Option String
  note : String
  updatedAt : Int
  deriving DecidableEq, Repr

structure EntryError where
  index : Nat
  id : Option String
  error : String
  deriving DecidableEq, Repr

structure BulkWriteCall where
  ops : List BulkOp
  ordered : Bool
  deriving DecidableEq, Repr

structure BulkResult where
  success : Bool
  modifiedCount : Nat
  matchedCount : Nat
  call : Option BulkWriteCall
  deriving DecidableEq, Repr

/-- The body of the per-entry `try` in `bulkUpdateStatus`: missing-field
check, `findById`, then the schema method `validateStatusTransition`; every
throw is caught and recorded as that entry's error message. -/
def bulkUpdateValidateEntry (cache : PickupCache) (store : Store) (now : Int)
    (u : BulkStatusUpdate) : PickupCache × Except String BulkOp :=
  if !(optTruthy u.id && optTruthy u.status) then
    (cache, Except.error "Missing required fields: id and status")
  else
    match u.id, u.status with
    | some id, some s =>
        match repoFindById cache store now id with
        | (cache1, Except.error e) => (cache1, Except.error e.message)
        | (cache1, Except.ok pickup) =>
            match PickupRequestSchema.validateStatusTransition pickup.status s with
            | Except.error msg => (cache1, Except.error msg)
            | Except.ok _ => (cache1, Except.ok ⟨id, s, none, u.note.getD "", now⟩)
    | _, _ => (cache, Except.error "Missing required fields: id and status")

def bulkUpdateStatusLoop (store : Store) (now : Int) :
    List BulkStatusUpdate → PickupCache → Nat → PickupCache × List BulkOp × List EntryError
  | [], cache, _ => (cache, [], [])
  | u :: rest, cache, idx =>
      match bulkUpdateValidateEntry cache store now u with
      | (cache1, Except.ok op) =>
          match bulkUpdateStatusLoop store now rest cache1 (idx + 1) with
          | (cache2, ops, errs) => (cache2, op :: ops, errs)
      | (cache1, Except.error msg) =>
          match bulkUpdateStatusLoop store now rest cache1 (idx + 1) with
          | (cache2, ops, errs) => (cache2, ops, ⟨idx, u.id, msg⟩ :: errs)

/-- Apply one `updateOne` of the bulk write to the collection. -/
def applyBulkOp (store : Store) (op : BulkOp) : Store :=
  store.map (fun p =>
    if p.id == op.filterId then
      { p with
        status := op.setStatus
        collectorId := match op.setCollectorId with | some c => some c | none => p.collectorId
        lastModifiedAt := some op.updatedAt
        statusHistory := p.statusHistory ++ [⟨op.setStatus, some op.note, op.updatedAt⟩] }
    else p)

def applyBulkOps (store : Store) (ops : List BulkOp) : Store :=
  ops.foldl applyBulkOp store

def bulkMatchedCount (store : Store) (ops : List BulkOp) : Nat :=
  (ops.filter (fun op => store.any (fun p => p.id == op.filterId))).length

/-- `PickupRepository.bulkUpdateStatus`: validate every entry, throw a
`ValidationError` when any entry failed (the per-entry error list passed as a
second constructor argument is discarded by the error class), otherwise issue
one `bulkWrite(bulkOps, {ordered: false})`.  Returns the mutated cache, the
resulting collection, and the thrown-or-returned result. -/
def bulkUpdateStatus (cache : PickupCache) (store : Store) (now : Int)
    (updates : List BulkStatusUpdate) : PickupCache × Store × Except Err BulkResult :=
  match bulkUpdateStatusLoop store now updates cache 0 with
  | (cache1, bulkOps, errors) =>
      if errors.length > 0 then
        (cache1, store, Except.error (ValidationError "Bulk update validation failed"))
      else if bulkOps.length > 0 then
        (cache1, applyBulkOps store bulkOps,
          Except.ok ⟨true, bulkMatchedCount store bulkOps, bulkMatchedCount store bulkOps,
            some ⟨bulkOps, false⟩⟩)
      else
        (cache1, store, Except.ok ⟨false, 0, 0, none⟩)

/-- The body of the per-entry `try` in `bulkAssignCollectors`: missing-field
check, `findById`, then the pending-status guard. -/
def bulkAssignValidateEntry (cache : PickupCache) (store : Store) (now : Int)
    (a : BulkAssignment) : PickupCache × Except String BulkOp :=
  if !(optTruthy a.pickupId && optTruthy a.collectorId) then
    (cache, Except.error "Missing required fields: pickupId and collectorId")
  else
    match a.pickupId, a.collectorId with
    | some pid, some cid =>
        match repoFindById cache store now pid with
        | (cache1, Except.error e) => (cache1, Except.error e.message)
        | (cache1, Except.ok pickup) =>
            if pickup.status != "pending" then
              (cache1, Except.error
                ("Cannot assign collector to " ++ pickup.status ++ " pickup request"))
            else (cache1, Except.ok ⟨pid, "assigned", some cid, a.note.getD "", now⟩)
    | _, _ => (cache, Except.error "Missing required fields: pickupId and collectorId")

def bulkAssignCollectorsLoop (store : Store) (now : Int) :
    List BulkAssignment → PickupCache → Nat → PickupCache × List BulkOp × List EntryError
  | [], cache, _ => (cache, [], [])
  | a :: rest, cache, idx =>
      match bulkAssignValidateEntry cache store now a with
      | (cache1, Except.ok op) =>
          match bulkAssignCollectorsLoop store now rest cache1 (idx + 1) with
          | (cache2, ops, errs) => (cache2, op :: ops, errs)
      | (cache1, Except.error msg) =>
          match bulkAssignCollectorsLoop store now rest cache1 (idx + 1) with
          | (cache2, ops, errs) => (cache2, ops, ⟨idx, a.pickupId, msg⟩ :: errs)

/-- `PickupRepository.bulkAssignCollectors`, same shape as `bulkUpdateStatus`. -/
def bulkAssignCollectors (cache : PickupCache) (store : Store) (now : Int)
    (assignments : List BulkAssignment) : PickupCache × Store × Except Err BulkResult :=
  match bulkAssignCollectorsLoop store now assignments cache 0 with
  | (cache1, bulkOps, errors) =>
      if errors.length > 0 then
        (cache1, store, Except.error (ValidationError "Bulk assignment validation failed"))
      else if bulkOps.length > 0 then
        (cache1, applyBulkOps store bulkOps,
          Except.ok ⟨true, bulkMatchedCount store bulkOps, bulkMatchedCount store bulkOps,
            some ⟨bulkOps, false⟩⟩)
      else
        (cache1, store, Except.ok ⟨false, 0, 0, none⟩)

/-! ### Creation: `PickupRepository.create` over `BaseRepository.create`
(`new this.model(data)` followed by `doc.save()`), including the schema
pre-save hook -/

structure LocationInput where
  coordinates : List Int
  deriving DecidableEq, Repr

structure PickupInput where
  clinicId : Option String
  wasteType : Option String
  volumeKg : Option Rat
  location : Option LocationInput
  priority : Option String
  isEmergency : Bool
  status : Option String
  statusHistory : Option (List StatusEntry)
  collectorId : Option String
  deriving DecidableEq, Repr

/-- First half of the schema pre-save hook: push a status-history entry when
the `status` path is modified. -/
def preSaveStatusPush (doc : Pickup) (statusModified : Bool) (now : Int) : Pickup :=
  if statusModified then
    { doc with statusHistory := doc.statusHistory ++ [⟨doc.status, none, now⟩] }
  else doc

/-- Second half of the schema pre-save hook: force priority `urgent` for
emergency requests. -/
def preSavePriorityFix (doc : Pickup) : Pickup :=
  if doc.isEmergency && doc.priority != "urgent" then { doc with priority := "urgent" }
  else doc

/-- The schema pre-save hook. -/
def preSaveHook (doc : Pickup) (statusModified : Bool) (now : Int) : Pickup :=
  preSavePriorityFix (preSaveStatusPush doc statusModified now)

/-- Schema validation run by `save()` on a new document: the enum and bound
checks of the modelled paths. -/
def newDocValid (doc : Pickup) : Bool :=
  pickupStatuses.contains doc.status && wasteTypes.contains doc.wasteType &&
  validPriorities.contains doc.priority &&
  decide (0 ≤ doc.volumeKg) && decide (doc.volumeKg ≤ 1000) &&
  doc.statusHistory.all (fun h => pickupStatuses.contains h.status)

/-- The document handed to `new this.model(...)` by `PickupRepository.create`:
the caller data spread first, then `status: 'pending'`, `requestedAt` and a
fresh single-entry `statusHistory` overriding whatever the caller supplied;
the priority was already forced to `urgent` for emergencies.  The schema
default `medium` applies when no priority is set. -/
def createDoc (freshId : String) (now : Int) (data : PickupInput) (w : String) (v : Rat) :
    Pickup :=
  let priority1 :=
    if data.isEmergency && (!(optTruthy data.priority) || data.priority != some "urgent") then
      some "urgent"
    else data.priority
  { id := freshId
    clinicId := data.clinicId.getD ""
    collectorId := data.collectorId
    wasteType := w
    volumeKg := v
    priority := priority1.getD "medium"
    status := "pending"
    statusHistory := [⟨"pending", none, now⟩]
    isEmergency := data.isEmergency
    requestedAt := now
    collectedAt := none
    lastModifiedAt := none
    isDeleted := false }

/-- `PickupRepository.create`: field validation, emergency priority forcing,
then `super.create` with status forced to `pending`, `requestedAt := now` and
a fresh single-entry status history, all overriding any caller-supplied
values.  `doc.save()` validates the document and runs the schema pre-save
hook; on a new document every explicitly set path is modified, so the hook
sees `isModified('status') = true` and appends a second pending entry.
`freshId` models ObjectId generation for the new document. -/
def repoCreate (store : Store) (now : Int) (freshId : String) (data : PickupInput) :
    Except Err (Store × Pickup) :=
  if !(optTruthy data.clinicId) then
    Except.error (ValidationError "Clinic ID is required")
  else
    match data.wasteType with
    | none => Except.error (ValidationError "Invalid or missing waste type")
    | some w =>
        if !(validateWasteType w) then
          Except.error (ValidationError "Invalid or missing waste type")
        else
          match data.volumeKg with
          | none => Except.error (ValidationError "Volume must be between 0 and 1000 kg")
          | some v =>
              if v == 0 || decide (v ≤ 0) || decide (v > 1000) then
                Except.error (ValidationError "Volume must be between 0 and 1000 kg")
              else
                match data.location with
                | none => Except.error (ValidationError "Valid location coordinates are required")
                | some _ =>
                    if newDocValid (createDoc freshId now data w v) then
                      Except.ok
                        (store ++ [preSaveHook (createDoc freshId now data w v) true now],
                          preSaveHook (createDoc freshId now data w v) true now)
                    else Except.error (ValidationError "Invalid PickupRequest data")

/-- The update object `updatePriority` passes to `this.update`: the new
priority plus a status history extended by a priority-change note. -/
def priorityUpdateData (request : Pickup) (priority note : String) (now : Int) : UpdateData :=
  { emptyUpdate with
    priority := some priority
    statusHistory := some (request.statusHistory ++
      [⟨request.status,
        some ("Priority changed to " ++ priority ++
          (if note != "" then ": " ++ note else "")), now⟩]) }

/-- `PickupRepository.updatePriority`. -/
def updatePriority (cache : PickupCache) (store : Store) (now : Int) (id : String)
    (priority : String) (note : String) : PickupCache × Except Err (Store × Pickup) :=
  if !(validPriorities.contains priority) then
    (cache, Except.error (ValidationError "Invalid priority level"))
  else
    match repoFindById cache store now id with
    | (cache1, Except.error e) => (cache1, Except.error e)
    | (cache1, Except.ok request) =>
        if request.isEmergency && priority != "urgent" then
          (cache1, Except.error (ValidationError "Emergency requests must maintain urgent priority"))
        else
          match repoUpdate cache1 store now id (priorityUpdateData request priority note now) with
          | (cache2, Except.error e) => (cache2, Except.error e)
          | (cache2, Except.ok (store1, updated)) =>
              (jsMapDelete cache2 ("pickup:" ++ id), Except.ok (store1, updated))

/-! ### Geospatial nearby search -/

inductive FilterVal where
  | neTrue
  | boolVal (b : Bool)
  | strVal (s : String)
  deriving DecidableEq, Repr

abbrev Filters := List (String × FilterVal)

def assocLookup (l : Filters) (k : String) : Option FilterVal :=
  (l.find? (fun p => p.1 == k)).map Prod.snd

/-- JS object spread: keys of `extra` override keys of `base`; overridden
keys keep their original position, new keys are appended. -/
def jsSpread (base extra : Filters) : Filters :=
  base.map (fun p => match assocLookup extra p.1 with | some v => (p.1, v) | none => p) ++
  extra.filter (fun q => !(base.any (fun p => p.1 == q.1)))

/-- What the repository receives where it expects a coordinates array; the
service hands over the whole location object. -/
inductive NearbyInput where
  | arr (coords : List Int)
  | objLoc (loc : LocationInput)
  deriving DecidableEq, Repr

/-- The single `$near` query issued against the 2dsphere-indexed `location`
field: point geometry coordinates, `$maxDistance`, and the remaining
conditions. -/
structure NearQuery where
  coordinates : List Int
  maxDistance : Int
  conds : Filters
  deriving DecidableEq, Repr

def isArrayOfTwo : NearbyInput → Bool
  | NearbyInput.arr coords => coords.length == 2
  | NearbyInput.objLoc _ => false

/-- `PickupRepository.findNearby(coordinates, maxDistance = 10000, filters)`:
reject anything but a two-element array, then issue one `$near` query with
the given `$maxDistance`, an `isDeleted: not-true` condition, and the spread
filters (spread after the base keys, so they may override). -/
def repoFindNearby (input : NearbyInput) (maxDistance : Int) (filters : Filters) :
    Except Err NearQuery :=
  if !(isArrayOfTwo input) then
    Except.error (ValidationError "Valid coordinates [longitude, latitude] are required")
  else
    match input with
    | NearbyInput.arr coords =>
        Except.ok ⟨coords, maxDistance, jsSpread [("isDeleted", FilterVal.neTrue)] filters⟩
    | NearbyInput.objLoc _ =>
        Except.error (ValidationError "Valid coordinates [longitude, latitude] are required")

/-- The repository default `maxDistance = 10000`. -/
def repoFindNearbyDefault (input : NearbyInput) (filters : Filters) : Except Err NearQuery :=
  repoFindNearby input 10000 filters

/-- The schema static `findNearby(coordinates, maxDistance = 5000, filters)`:
no validation; `isDeleted: false` is written after the filter spread. -/
def schemaFindNearby (coords : List Int) (maxDistance : Int) (filters : Filters) : NearQuery :=
  ⟨coords, maxDistance, jsSpread filters [("isDeleted", FilterVal.boolVal false)]⟩

/-- The schema static default `maxDistance = 5000`. -/
def schemaFindNearbyDefault (coords : List Int) (filters : Filters) : NearQuery :=
  schemaFindNearby coords 5000 filters

/-! ### Shared validators (`src/utils/validation.js`) -/

/-- `mongoose.Types.ObjectId.isValid`: a 24-character hex string or a
12-character string. -/
def isValidObjectId (id : String) : Bool :=
  (id.length == 24 && id.toList.all (fun c => c.isDigit || "abcdefABCDEF".toList.contains c))
  || id.length == 12

/-- `validateObjectId`: falsy ids fail, otherwise `ObjectId.isValid`. -/
def validateObjectId (id : Option String) : Bool :=
  match id with
  | none => false
  | some s => s != "" && isValidObjectId s

/-- `validateCoordinates` from `utils/validation.js`; numbers are modelled as
integers, so the `typeof longitude` checks always pass. -/
def validateCoordinates (coordinates : Option (List Int)) : Bool :=
  match coordinates with
  | none => false
  | some l =>
      match l with
      | [longitude, latitude] =>
          decide (-180 ≤ longitude) && decide (longitude ≤ 180) &&
          decide (-90 ≤ latitude) && decide (latitude ≤ 90)
      | _ => false

/-! ### Pickup service (`src/services/pickupservice.js`) -/

/-- The argument `addPickupRequest` passes to `findByStatus` is a JS array,
while `validateStatus` checks membership of the four status strings;
`Array.prototype.includes` compares an array argument by identity, so it is
never a member of a list of strings. -/
inductive StatusArg where
  | strArg (s : String)
  | arrArg (l : List String)
  deriving DecidableEq, Repr

def validateStatusArg : StatusArg → Bool
  | StatusArg.strArg s => validateStatus s
  | StatusArg.arrArg _ => false

structure PageResult where
  docs : List Pickup
  total : Nat
  page : Nat
  limit : Nat
  deriving DecidableEq, Repr

/-- `findWithFilters({status})` over `findWithPagination` with the default
page 1 and limit 10 (only the status filter is exercised by the modelled
callers). -/
def findWithFilters (store : Store) (status : String) : PageResult :=
  let docs := store.filter (fun p => !p.isDeleted && p.status == status)
  ⟨docs.take 10, docs.length, 1, 10⟩

/-- `PickupRepository.findByStatus`. -/
def findByStatus (store : Store) (status : StatusArg) : Except Err PageResult :=
  if !(validateStatusArg status) then Except.error (ValidationError "Invalid status")
  else
    match status with
    | StatusArg.strArg s => Except.ok (findWithFilters store s)
    | StatusArg.arrArg _ => Except.error (ValidationError "Invalid status")

def MAX_ACTIVE_REQUESTS : Nat := 5

/-- `pickupservice.addPickupRequest`: clinic-id and coordinate validation,
the active-request limit via `findByStatus(['pending', 'assigned'])`,
emergency priority forcing, then `pickupRepository.create`; the catch
rethrows `ValidationError` and wraps everything else in `InternalError`.
(The notification side effect touches no pickup state and is not modelled.) -/
def addPickupRequest (store : Store) (now : Int) (freshId : String) (data : PickupInput) :
    Except Err (Store × Pickup) :=
  let body : Except Err (Store × Pickup) :=
    if !(validateObjectId data.clinicId) then
      Except.error (ValidationError "Invalid clinic ID")
    else if (match data.location with
        | some loc => !(validateCoordinates (some loc.coordinates))
        | none => false) then
      Except.error (ValidationError "Invalid coordinates")
    else
      match findByStatus store (StatusArg.arrArg ["pending", "assigned"]) with
      | Except.error e => Except.error e
      | Except.ok activeRequests =>
          if MAX_ACTIVE_REQUESTS ≤ activeRequests.docs.length then
            Except.error (ValidationError "Maximum active requests (5) reached")
          else
            let data1 :=
              if data.isEmergency then { data with priority := some "urgent" } else data
            repoCreate store now freshId data1
  match body with
  | Except.error e =>
      if e.name == ErrName.validation then Except.error e
      else Except.error (InternalError "Failed to create pickup request")
  | Except.ok r => Except.ok r

/-- `pickupservice.findNearbyPickups(location, radius = 5000)`: the catch
wraps every thrown error — including the coordinate `ValidationError` — in
`InternalError`. -/
def findNearbyPickups (location : Option LocationInput) (radius : Int) : Except Err NearQuery :=
  let body : Except Err NearQuery :=
    if !(validateCoordinates (location.map (fun l => l.coordinates))) then
      Except.error (ValidationError "Invalid location coordinates")
    else
      match location with
      | some loc => repoFindNearby (NearbyInput.objLoc loc) radius []
      | none => Except.error (ValidationError "Invalid location coordinates")
  match body with
  | Except.error _ => Except.error (InternalError "Failed to fetch nearby pickups")
  | Except.ok q => Except.ok q

/-- `pickupservice.fetchPickupRequestById`: rethrows `ValidationError` and
`NotFoundError`, wraps everything else in `InternalError`. -/
def fetchPickupRequestById (cache : PickupCache) (store : Store) (now : Int) (id : String) :
    PickupCache × Except Err Pickup :=
  if !(validateObjectId (some id)) then
    (cache, Except.error (ValidationError "Invalid pickup request ID"))
  else
    match repoFindById cache store now id with
    | (cache1, Except.error e) =>
        if e.name == ErrName.validation || e.name == ErrName.notFound then
          (cache1, Except.error e)
        else (cache1, Except.error (InternalError "Failed to fetch pickup request"))
    | (cache1, Except.ok doc) => (cache1, Except.ok doc)

/-! ### Statistics trends (`PickupRepository.calculateTrends`) -/

/-- Days from a civil date (proleptic Gregorian calendar); the
`new Date(year, month - 1, day)` values the source sorts, subtracts and
compares are modelled as milliseconds at this day count. -/
def daysFromCivil (y m d : Int) : Int :=
  let y1 := if m ≤ 2 then y - 1 else y
  let era := Int.fdiv y1 400
  let yoe := y1 - era * 400
  let mp := (m + 9) % 12
  let doy := (153 * mp + 2) / 5 + d - 1
  let doe := yoe * 365 + yoe / 4 - yoe / 100 + doy
  era * 146097 + doe - 719468

structure DateVal where
  year : Int
  month : Int
  day : Int
  ms : Int
  deriving DecidableEq, Repr

def mkDateVal (y m d : Int) : DateVal := ⟨y, m, d, daysFromCivil y m d * 86400000⟩

def dummyDate : DateVal := mkDateVal 1970 1 1

/-- One element of the `$group`-by-day aggregation result fed to
`calculateTrends`. -/
structure TimeStat where
  year : Int
  month : Int
  day : Int
  count : Int
  totalVolume : Rat
  avgResponseTime : Option Rat
  deriving DecidableEq, Repr

def statDate (s : TimeStat) : DateVal := mkDateVal s.year s.month s.day

structure DailyEntry where
  date : DateVal
  count : Int
  volume : Rat
  avgResponseTime : Option Rat
  deriving DecidableEq, Repr

structure WeekBucket where
  startDate : DateVal
  endDate : DateVal
  count : Int
  volume : Rat
  avgResponseTime : Option Rat
  deriving DecidableEq, Repr

structure MonthBucket where
  month : Int
  year : Int
  count : Int
  volume : Rat
  avgResponseTime : Option Rat
  deriving DecidableEq, Repr

/-- The `currentWeek` / `currentMonth` accumulator object. -/
structure CurAcc where
  count : Int
  volume : Rat
  responseTime : List Rat
  days : List DateVal
  deriving DecidableEq, Repr

def emptyAcc : CurAcc := ⟨0, 0, [], []⟩

structure TrendState where
  weekly : List WeekBucket
  monthly : List MonthBucket
  curWeek : CurAcc
  curMonth : CurAcc
  deriving DecidableEq, Repr

/-- JS truthiness of `stat.avgResponseTime` (`null` and `0` are falsy). -/
def avgTruthy : Option Rat → Bool
  | none => false
  | some r => r != 0

/-- `responseTime.length ? responseTime.reduce((a, b) => a + b) / length : null`. -/
def listAvg (l : List Rat) : Option Rat :=
  if l.length == 0 then none else some (l.sum / (l.length : Rat))

def flushWeek (acc : CurAcc) : WeekBucket :=
  ⟨acc.days.headD dummyDate, acc.days.getLastD dummyDate, acc.count, acc.volume,
    listAvg acc.responseTime⟩

def flushMonth (acc : CurAcc) : MonthBucket :=
  ⟨(acc.days.headD dummyDate).month, (acc.days.headD dummyDate).year, acc.count, acc.volume,
    listAvg acc.responseTime⟩

def WEEK_MS : Int := 7 * 24 * 60 * 60 * 1000

/-- The weekly half of the `forEach` body. -/
def stepWeekly (st : TrendState) (stat : TimeStat) : TrendState :=
  if st.curWeek.days.length == 0 ||
      decide ((statDate stat).ms - (st.curWeek.days.headD dummyDate).ms ≤ WEEK_MS) then
    { st with curWeek :=
        { count := st.curWeek.count + stat.count
          volume := st.curWeek.volume + stat.totalVolume
          responseTime :=
            if avgTruthy stat.avgResponseTime then
              st.curWeek.responseTime ++ [stat.avgResponseTime.getD 0]
            else st.curWeek.responseTime
          days := st.curWeek.days ++ [statDate stat] } }
  else
    { st with
      weekly := st.weekly ++ [flushWeek st.curWeek]
      curWeek :=
        { count := stat.count
          volume := stat.totalVolume
          responseTime :=
            if avgTruthy stat.avgResponseTime then [stat.avgResponseTime.getD 0] else []
          days := [statDate stat] } }

/-- The monthly half of the `forEach` body. -/
def stepMonthly (st : TrendState) (stat : TimeStat) : TrendState :=
  if st.curMonth.days.length == 0 ||
      ((statDate stat).month == (st.curMonth.days.headD dummyDate).month &&
       (statDate stat).year == (st.curMonth.days.headD dummyDate).year) then
    { st with curMonth :=
        { count := st.curMonth.count + stat.count
          volume := st.curMonth.volume + stat.totalVolume
          responseTime :=
            if avgTruthy stat.avgResponseTime then
              st.curMonth.responseTime ++ [stat.avgResponseTime.getD 0]
            else st.curMonth.responseTime
          days := st.curMonth.days ++ [statDate stat] } }
  else
    { st with
      monthly := st.monthly ++ [flushMonth st.curMonth]
      curMonth :=
        { count := stat.count
          volume := stat.totalVolume
          responseTime :=
            if avgTruthy stat.avgResponseTime then [stat.avgResponseTime.getD 0] else []
          days := [statDate stat] } }

/-- One iteration of the `forEach`: the weekly block runs first, then the
monthly block; they touch disjoint components of the state. -/
def trendStep (st : TrendState) (stat : TimeStat) : TrendState :=
  stepMonthly (stepWeekly st stat) stat

structure Trends where
  daily : List DailyEntry
  weekly : List WeekBucket
  monthly : List MonthBucket
  deriving DecidableEq, Repr

/-- The comparator `(a, b) => dateA - dateB` sorts ascending by date. -/
def dateLe (a b : TimeStat) : Bool := decide ((statDate a).ms ≤ (statDate b).ms)

/-- The daily series: one entry per (sorted) aggregation row. -/
def dailyEntryOf (stat : TimeStat) : DailyEntry :=
  ⟨statDate stat, stat.count, stat.totalVolume, stat.avgResponseTime⟩

/-- The trailing flush: add the last week and month if they have data. -/
def trendsFinish (daily : List DailyEntry) (final : TrendState) : Trends :=
  ⟨daily,
    if final.curWeek.days.length > 0 then final.weekly ++ [flushWeek final.curWeek]
    else final.weekly,
    if final.curMonth.days.length > 0 then final.monthly ++ [flushMonth final.curMonth]
    else final.monthly⟩

/-- `PickupRepository.calculateTrends`: sort by date, build the daily series,
fold the weekly/monthly bucketing over the sorted rows, flush the last
buckets. -/
def calculateTrends (timeStats : List TimeStat) : Trends :=
  trendsFinish ((timeStats.mergeSort dateLe).map dailyEntryOf)
    ((timeStats.mergeSort dateLe).foldl trendStep ⟨[], [], emptyAcc, emptyAcc⟩)

/-! ### Reachable-state assumptions and sample documents -/

/-- The cache is faithful to the collection: every cached entry holds exactly
the active stored document of its id.  This holds on reachable states as long
as writes go through paths that invalidate the cache; the bulk operations do
not, which is what claim C3 turns on. -/
def cacheFaithful (store : Store) (cache : PickupCache) : Prop :=
  ∀ (id : String) (e : TimedVal Pickup),
    jsMapGet cache ("pickup:" ++ id) = some e → storeFindActive store id = some e.value

/-- Document ids are unique in the collection, as MongoDB guarantees. -/
def storeWF (store : Store) : Prop := (store.map Pickup.id).Nodup

def docPendingA : Pickup :=
  { id := "a", clinicId := "c", collectorId := none, wasteType := "sharps", volumeKg := 5,
    priority := "medium", status := "pending", statusHistory := [⟨"pending", none, 0⟩],
    isEmergency := false, requestedAt := 0, collectedAt := none, lastModifiedAt := none,
    isDeleted := false }

def docAssignedA : Pickup := { docPendingA with status := "assigned", collectorId := some "k" }

def docCollectedA : Pickup := { docAssignedA with status := "collected" }

/-- A cache left stale by a bulk write: it still holds the assigned version
of document `a` although the collection has the collected version. -/
def staleCacheA : PickupCache := [("pickup:a", ⟨docAssignedA, 0⟩)]

/-- A creation input that is accepted by `PickupRepository.create` although
the caller also supplied a status and a status history. -/
def createInputA : PickupInput :=
  { clinicId := some "aaaaaaaaaaaaaaaaaaaaaaaa", wasteType := some "sharps",
    volumeKg := some 5, location := some ⟨[10, 20]⟩, priority := none,
    isEmergency := false, status := some "assigned",
    statusHistory := some [⟨"collected", none, 0⟩], collectorId := none }

/-- The document `create(createInputA)` stores: pending status, and a
status history of two pending entries (the repository entry plus the one the
pre-save hook appends). -/
def createdDocB : Pickup :=
  { id := "b", clinicId := "aaaaaaaaaaaaaaaaaaaaaaaa", collectorId := none,
    wasteType := "sharps", volumeKg := 5, priority := "medium", status := "pending",
    statusHistory := [⟨"pending", none, 0⟩, ⟨"pending", none, 0⟩], isEmergency := false,
    requestedAt := 0, collectedAt := none, lastModifiedAt := none, isDeleted := false }

/-- An emergency creation input whose caller-supplied priority is low. -/
def createInputE : PickupInput :=
  { createInputA with
    isEmergency := true
    priority := some "low"
    status := none
    statusHistory := none }

/-- The document `create(createInputE)` stores: the priority was forced to
urgent on the emergency path. -/
def createdDocE : Pickup :=
  { createdDocB with id := "e", priority := "urgent", isEmergency := true }

/-- An emergency document already at urgent priority. -/
def docEmergA : Pickup := { docPendingA with isEmergency := true, priority := "urgent" }

/-! ## Theorems -/

/-- C1: over the four-node status set, the schema method
`validateStatusTransition` succeeds, and the standalone validator returns a
valid result, exactly on the four pairs pending→assigned, pending→cancelled,
assigned→collected, assigned→cancelled; every other pair — in particular every
transition out of collected or cancelled — fails. -/
theorem claim_C1 (s t : String) (hs : s ∈ pickupStatuses) (ht : t ∈ pickupStatuses) :
    (exceptOk (PickupRequestSchema.validateStatusTransition s t) = true ↔
      allowedTransitionPairs s t) ∧
    ((PickupValidation.validateStatusTransition s t).isValid = true ↔
      allowedTransitionPairs s t) := by
  simp only [pickupStatuses, List.mem_cons, List.not_mem_nil, or_false] at hs ht
  rcases hs with rfl | rfl | rfl | rfl <;> rcases ht with rfl | rfl | rfl | rfl <;>
    constructor <;> constructor <;> intro h <;>
    simp_all [PickupRequestSchema.validateStatusTransition, PickupRequestSchema.validTransitions,
      PickupValidation.validateStatusTransition, PickupValidation.validTransitions,
      createValidationResult, exceptOk, allowedTransitionPairs]

/-- Witness for C1 at the concrete pair (assigned, collected). -/
theorem claim_C1_witness :
    (exceptOk (PickupRequestSchema.validateStatusTransition "assigned" "collected") = true ↔
      allowedTransitionPairs "assigned" "collected") ∧
    ((PickupValidation.validateStatusTransition "assigned" "collected").isValid = true ↔
      allowedTransitionPairs "assigned" "collected") :=
  claim_C1 "assigned" "collected" (by simp [pickupStatuses]) (by simp [pickupStatuses])

/-! Map lemmas. -/

theorem jsMapGet_cons {α : Type} (a : String) (b : α) (m : JsMap α) (k : String) :
    jsMapGet ((a, b) :: m) k = if a = k then some b else jsMapGet m k := by
  by_cases h : a = k
  · simp [jsMapGet, List.find?_cons_of_pos, h]
  · simp [jsMapGet, List.find?_cons_of_neg, h]

theorem jsMapSet_length {α : Type} (m : JsMap α) (k : String) (v : α) :
    (jsMapSet m k v).length = if jsMapHasKey m k then m.length else m.length + 1 := by
  simp only [jsMapSet]
  split <;> simp

theorem jsMapDelete_length_le {α : Type} (m : JsMap α) (k : String) :
    (jsMapDelete m k).length ≤ m.length :=
  List.length_filter_le _ _

theorem jsMapDelete_firstKey_length {α : Type} (m : JsMap α) (k0 : String)
    (h : jsMapFirstKey m = some k0) : (jsMapDelete m k0).length ≤ m.length - 1 := by
  cases m with
  | nil => simp [jsMapFirstKey] at h
  | cons p rest =>
      have hk : p.1 = k0 := by
        simp [jsMapFirstKey] at h
        exact h
      obtain ⟨a, b⟩ := p
      subst hk
      simp only [jsMapDelete, List.filter_cons, beq_self_eq_true, Bool.not_true,
        List.length_cons, Nat.add_sub_cancel]
      exact List.length_filter_le _ _

theorem jsMapGet_delete_self {α : Type} (m : JsMap α) (k : String) :
    jsMapGet (jsMapDelete m k) k = none := by
  induction m with
  | nil => rfl
  | cons p rest ih =>
      obtain ⟨a, b⟩ := p
      by_cases h : a = k
      · simpa [jsMapDelete, List.filter_cons, h] using ih
      · simpa [jsMapDelete, List.filter_cons, h, jsMapGet_cons] using ih

theorem jsMapGet_delete_ne {α : Type} (m : JsMap α) (k k' : String) (h : k ≠ k') :
    jsMapGet (jsMapDelete m k) k' = jsMapGet m k' := by
  induction m with
  | nil => rfl
  | cons p rest ih =>
      obtain ⟨a, b⟩ := p
      by_cases ha : a = k
      · subst ha
        simpa [jsMapDelete, List.filter_cons, jsMapGet_cons, h] using ih
      · simp [jsMapDelete, List.filter_cons, ha, jsMapGet_cons] at ih ⊢
        by_cases ha' : a = k' <;> simp [ha', ih]

theorem jsMapGet_overwrite_ne {α : Type} (m : JsMap α) (k k' : String) (v : α) (h : k ≠ k') :
    jsMapGet (m.map (fun p => if p.1 == k then (k, v) else p)) k' = jsMapGet m k' := by
  induction m with
  | nil => rfl
  | cons p rest ih =>
      obtain ⟨a, b⟩ := p
      by_cases ha : a = k
      · simpa [ha, jsMapGet_cons, h] using ih
      · by_cases ha' : a = k'
        · simp [ha, ha', jsMapGet_cons, Ne.symm h]
        · simpa [ha, ha', jsMapGet_cons] using ih

theorem jsMapGet_append_single_ne {α : Type} (m : JsMap α) (k k' : String) (v : α)
    (h : k ≠ k') : jsMapGet (m ++ [(k, v)]) k' = jsMapGet m k' := by
  induction m with
  | nil => simp [jsMapGet_cons, h, jsMapGet]
  | cons p rest ih =>
      obtain ⟨a, b⟩ := p
      by_cases ha' : a = k' <;> simp [List.cons_append, jsMapGet_cons, ha', ih]

theorem jsMapGet_set_ne {α : Type} (m : JsMap α) (k k' : String) (v : α) (h : k ≠ k') :
    jsMapGet (jsMapSet m k v) k' = jsMapGet m k' := by
  simp only [jsMapSet]
  split
  · exact jsMapGet_overwrite_ne m k k' v h
  · exact jsMapGet_append_single_ne m k k' v h

theorem jsMapGet_overwrite_self {α : Type} (m : JsMap α) (k : String) (v : α)
    (hhas : jsMapHasKey m k = true) :
    jsMapGet (m.map (fun p => if p.1 == k then (k, v) else p)) k = some v := by
  induction m with
  | nil => simp [jsMapHasKey] at hhas
  | cons p rest ih =>
      obtain ⟨a, b⟩ := p
      by_cases ha : a = k
      · simp [ha, jsMapGet_cons]
      · have hrest : jsMapHasKey rest k = true := by
          simp [jsMapHasKey] at hhas ⊢
          rcases hhas with hc | hc
          · exact absurd hc ha
          · exact hc
        simpa [ha, jsMapGet_cons] using ih hrest

theorem jsMapGet_append_single_self {α : Type} (m : JsMap α) (k : String) (v : α)
    (hhas : jsMapHasKey m k = false) : jsMapGet (m ++ [(k, v)]) k = some v := by
  induction m with
  | nil => simp [jsMapGet_cons]
  | cons p rest ih =>
      obtain ⟨a, b⟩ := p
      have ha : ¬ a = k := by
        intro hc
        simp [jsMapHasKey, hc] at hhas
      have hrest : jsMapHasKey rest k = false := by
        simp [jsMapHasKey] at hhas ⊢
        intro x hx
        exact hhas.2 x hx
      simp [List.cons_append, jsMapGet_cons, ha, ih hrest]

theorem jsMapGet_set_self {α : Type} (m : JsMap α) (k : String) (v : α) :
    jsMapGet (jsMapSet m k v) k = some v := by
  simp only [jsMapSet]
  split
  · rename_i hhas
    exact jsMapGet_overwrite_self m k v hhas
  · rename_i hhas
    exact jsMapGet_append_single_self m k v (by simpa using hhas)

/-- Size bound preservation for a single cache operation. -/
theorem applyCacheOp_length {α : Type} (m : JsMap (TimedVal α)) (op : CacheOp α)
    (h : m.length ≤ MAX_CACHE_SIZE) : (applyCacheOp m op).length ≤ MAX_CACHE_SIZE := by
  cases op with
  | set k v t =>
      simp only [applyCacheOp, setCacheValue, setCacheEvict]
      by_cases hfull : MAX_CACHE_SIZE ≤ m.length
      · have hne : m ≠ [] := by
          intro hnil
          rw [hnil] at hfull
          simp [MAX_CACHE_SIZE] at hfull
        obtain ⟨p, rest, rfl⟩ := List.exists_cons_of_ne_nil hne
        have hfk : jsMapFirstKey (p :: rest) = some p.1 := by simp [jsMapFirstKey]
        simp only [hfull, if_true, hfk]
        rw [jsMapSet_length]
        have hdel := jsMapDelete_firstKey_length (p :: rest) p.1 hfk
        simp only [MAX_CACHE_SIZE] at h hfull ⊢
        simp only [List.length_cons] at h hfull hdel
        split
        · omega
        · omega
      · simp only [hfull, if_false]
        rw [jsMapSet_length]
        simp only [MAX_CACHE_SIZE] at h hfull ⊢
        split
        · omega
        · omega
  | get k t =>
      simp only [applyCacheOp, getCacheValue]
      cases hg : jsMapGet m k with
      | none => simpa using h
      | some cached =>
          simp only
          split
          · simpa using le_trans (jsMapDelete_length_le m k) h
          · simpa using h

/-- C4: the repository caches are bounded maps.  (1) Any sequence of
`setCacheValue` / `getCacheValue` calls starting from the empty cache keeps at
most `MAX_CACHE_SIZE = 1000` entries.  (2) When the map already holds at least
1000 entries, `setCacheValue` evicts the oldest-inserted key before inserting
the new one.  (3) `getCacheValue` deletes, and misses on, an entry strictly
older than the five-minute TTL. -/
theorem claim_C4 {α : Type} :
    (∀ ops : List (CacheOp α), (runCacheOps ops).length ≤ MAX_CACHE_SIZE) ∧
    (∀ (m : JsMap (TimedVal α)) (k : String) (v : α) (now : Int) (k0 : String),
      MAX_CACHE_SIZE ≤ m.length → jsMapFirstKey m = some k0 → k ≠ k0 →
      jsMapGet (setCacheValue m k v now) k0 = none) ∧
    (∀ (m : JsMap (TimedVal α)) (k : String) (now : Int) (cached : TimedVal α),
      jsMapGet m k = some cached → CACHE_TTL < now - cached.timestamp →
      getCacheValue m k now = (none, jsMapDelete m k)) := by
  refine ⟨?_, ?_, ?_⟩
  · intro ops
    have step : ∀ (l : List (CacheOp α)) (m : JsMap (TimedVal α)),
        m.length ≤ MAX_CACHE_SIZE → (l.foldl applyCacheOp m).length ≤ MAX_CACHE_SIZE := by
      intro l
      induction l with
      | nil => intro m hm; simpa using hm
      | cons op rest ih =>
          intro m hm
          exact ih _ (applyCacheOp_length m op hm)
    exact step ops [] (by simp [MAX_CACHE_SIZE])
  · intro m k v now k0 hfull hfk hne
    simp only [setCacheValue, setCacheEvict, hfull, if_true, hfk]
    rw [jsMapGet_set_ne _ _ _ _ hne]
    exact jsMapGet_delete_self m k0
  · intro m k now cached hget hold
    simp [getCacheValue, hget, hold]

/-- Witness for C4: eviction of the oldest key at a concrete full map and TTL
expiry at a concrete stale entry. -/
theorem claim_C4_witness :
    jsMapGet
      (setCacheValue (("k", (⟨0, 0⟩ : TimedVal Int)) :: List.replicate 999 ("j", ⟨0, 0⟩))
        "x" 7 5) "k" = none ∧
    getCacheValue [("a", (⟨3, 0⟩ : TimedVal Int))] "a" 300001
      = (none, jsMapDelete [("a", (⟨3, 0⟩ : TimedVal Int))] "a") := by
  constructor
  · exact claim_C4.2.1 _ "x" 7 5 "k"
      (by simp only [MAX_CACHE_SIZE, List.length_cons, List.length_replicate]; omega)
      rfl (by decide)
  · exact claim_C4.2.2 _ "a" 300001 ⟨3, 0⟩ rfl (by decide)

theorem assocLookup_jsSpread_base (extra : Filters) (k : String) (v : FilterVal)
    (h : extra.all (fun p => p.1 != k) = true) :
    assocLookup (jsSpread [(k, v)] extra) k = some v := by
  have hnone : (extra.find? (fun p => p.1 == k)) = none := by
    rw [List.find?_eq_none]
    intro p hp
    have hne := (List.all_eq_true.mp h) p hp
    simpa using hne
  have h1 : assocLookup extra k = none := by simp [assocLookup, hnone]
  simp only [jsSpread, List.map_cons, List.map_nil, h1]
  rw [assocLookup, List.singleton_append, List.find?_cons_of_pos _ (by simp)]
  rfl

/-- C6: `findNearby` throws `ValidationError` unless the coordinates argument
is a two-element array; otherwise it issues one `$near` query whose
`$maxDistance` is the given radius and which carries the soft-delete
exclusion `isDeleted: not-true` (as long as the extra filters do not
themselves override `isDeleted`); the repository default radius is 10000 and
the schema static default is 5000. -/
theorem claim_C6 :
    (∀ (input : NearbyInput) (maxDistance : Int) (filters : Filters),
      isArrayOfTwo input = false →
      repoFindNearby input maxDistance filters =
        Except.error (ValidationError "Valid coordinates [longitude, latitude] are required")) ∧
    (∀ (coords : List Int) (maxDistance : Int) (filters : Filters),
      coords.length = 2 → filters.all (fun p => p.1 != "isDeleted") = true →
      ∃ q : NearQuery, repoFindNearby (NearbyInput.arr coords) maxDistance filters =
          Except.ok q ∧ q.coordinates = coords ∧ q.maxDistance = maxDistance ∧
          assocLookup q.conds "isDeleted" = some FilterVal.neTrue) ∧
    (∀ (input : NearbyInput) (filters : Filters),
      repoFindNearbyDefault input filters = repoFindNearby input 10000 filters) ∧
    (∀ (coords : List Int) (filters : Filters),
      schemaFindNearbyDefault coords filters = schemaFindNearby coords 5000 filters) := by
  refine ⟨?_, ?_, fun _ _ => rfl, fun _ _ => rfl⟩
  · intro input maxDistance filters h
    cases input with
    | arr coords => simp [repoFindNearby, h]
    | objLoc loc => simp [repoFindNearby, isArrayOfTwo]
  · intro coords maxDistance filters hlen hfil
    refine ⟨⟨coords, maxDistance, jsSpread [("isDeleted", FilterVal.neTrue)] filters⟩, ?_, rfl,
      rfl, assocLookup_jsSpread_base filters "isDeleted" FilterVal.neTrue hfil⟩
    simp [repoFindNearby, isArrayOfTwo, hlen]

/-- Witness for C6: a one-element array is rejected; a concrete two-element
query keeps the radius and the soft-delete exclusion. -/
theorem claim_C6_witness :
    (repoFindNearby (NearbyInput.arr [1]) 10000 [] =
      Except.error (ValidationError "Valid coordinates [longitude, latitude] are required")) ∧
    (∃ q : NearQuery, repoFindNearby (NearbyInput.arr [10, 20]) 500
        [("status", FilterVal.strVal "pending")] = Except.ok q ∧
      q.coordinates = [10, 20] ∧ q.maxDistance = 500 ∧
      assocLookup q.conds "isDeleted" = some FilterVal.neTrue) :=
  ⟨claim_C6.1 (NearbyInput.arr [1]) 10000 [] (by decide),
    claim_C6.2.1 [10, 20] 500 [("status", FilterVal.strVal "pending")] (by decide) (by decide)⟩

/-- C8: `addPickupRequest` throws a `ValidationError` on every input and
never creates a pickup request: before reaching `create` it calls
`findByStatus(['pending', 'assigned'])`, whose `validateStatus` check rejects
the array argument with the `ValidationError` "Invalid status", which the
service catch rethrows (the earlier clinic-id and coordinate checks also
throw `ValidationError`). -/
theorem claim_C8 (store : Store) (now : Int) (freshId : String) (data : PickupInput) :
    ∃ e : Err, addPickupRequest store now freshId data = Except.error e ∧
      e.name = ErrName.validation := by
  by_cases h1 : validateObjectId data.clinicId
  · by_cases h2 : (match data.location with
        | some loc => !(validateCoordinates (some loc.coordinates))
        | none => false)
    · refine ⟨ValidationError "Invalid coordinates", ?_, rfl⟩
      simp [addPickupRequest, h1, h2, ValidationError]
    · refine ⟨ValidationError "Invalid status", ?_, rfl⟩
      simp only [addPickupRequest, h1, h2]
      simp [findByStatus, validateStatusArg, ValidationError]
  · refine ⟨ValidationError "Invalid clinic ID", ?_, rfl⟩
    simp [addPickupRequest, h1, ValidationError]

/-- C10: `findNearbyPickups` wraps every error — including the coordinate
`ValidationError` — in a 500-class `InternalError`, while
`fetchPickupRequestById` rethrows its 400-class `ValidationError` for an
invalid id unchanged. -/
theorem claim_C10 :
    (∀ (location : Option LocationInput) (radius : Int),
      validateCoordinates (location.map (fun l => l.coordinates)) = false →
      findNearbyPickups location radius =
        Except.error (InternalError "Failed to fetch nearby pickups") ∧
      (InternalError "Failed to fetch nearby pickups").statusCode = 500 ∧
      (InternalError "Failed to fetch nearby pickups").name = ErrName.internal) ∧
    (∀ (cache : PickupCache) (store : Store) (now : Int) (id : String),
      validateObjectId (some id) = false →
      (fetchPickupRequestById cache store now id).2 =
        Except.error (ValidationError "Invalid pickup request ID") ∧
      (ValidationError "Invalid pickup request ID").statusCode = 400 ∧
      (ValidationError "Invalid pickup request ID").name = ErrName.validation) := by
  constructor
  · intro location radius h
    refine ⟨?_, rfl, rfl⟩
    simp [findNearbyPickups, h]
  · intro cache store now id h
    refine ⟨?_, rfl, rfl⟩
    simp [fetchPickupRequestById, h]

/-- Witness for C10 at a missing location and at the invalid id "x". -/
theorem claim_C10_witness :
    (findNearbyPickups none 5000 =
      Except.error (InternalError "Failed to fetch nearby pickups") ∧
      (InternalError "Failed to fetch nearby pickups").statusCode = 500 ∧
      (InternalError "Failed to fetch nearby pickups").name = ErrName.internal) ∧
    ((fetchPickupRequestById [] [] 0 "x").2 =
      Except.error (ValidationError "Invalid pickup request ID") ∧
      (ValidationError "Invalid pickup request ID").statusCode = 400 ∧
      (ValidationError "Invalid pickup request ID").name = ErrName.validation) :=
  ⟨claim_C10.1 none 5000 (by decide), claim_C10.2 [] [] 0 "x" (by decide)⟩

/-! Pre-save hook lemmas. -/

theorem preSaveStatusPush_status (doc : Pickup) (sm : Bool) (now : Int) :
    (preSaveStatusPush doc sm now).status = doc.status := by
  unfold preSaveStatusPush
  split <;> rfl

theorem preSaveStatusPush_isEmergency (doc : Pickup) (sm : Bool) (now : Int) :
    (preSaveStatusPush doc sm now).isEmergency = doc.isEmergency := by
  unfold preSaveStatusPush
  split <;> rfl

theorem preSavePriorityFix_status (doc : Pickup) :
    (preSavePriorityFix doc).status = doc.status := by
  unfold preSavePriorityFix
  split <;> rfl

theorem preSavePriorityFix_history (doc : Pickup) :
    (preSavePriorityFix doc).statusHistory = doc.statusHistory := by
  unfold preSavePriorityFix
  split <;> rfl

theorem preSavePriorityFix_isEmergency (doc : Pickup) :
    (preSavePriorityFix doc).isEmergency = doc.isEmergency := by
  unfold preSavePriorityFix
  split <;> rfl

theorem preSavePriorityFix_emergency (doc : Pickup) (h : doc.isEmergency = true) :
    (preSavePriorityFix doc).priority = "urgent" := by
  unfold preSavePriorityFix
  split
  · rfl
  · rename_i hcond
    simp only [h, Bool.true_and, bne_iff_ne, ne_eq, Decidable.not_not] at hcond
    exact hcond

theorem preSaveHook_status (doc : Pickup) (sm : Bool) (now : Int) :
    (preSaveHook doc sm now).status = doc.status := by
  unfold preSaveHook
  rw [preSavePriorityFix_status, preSaveStatusPush_status]

theorem preSaveHook_history_true (doc : Pickup) (now : Int) :
    (preSaveHook doc true now).statusHistory =
      doc.statusHistory ++ [⟨doc.status, none, now⟩] := by
  unfold preSaveHook
  rw [preSavePriorityFix_history]
  rfl

theorem preSaveHook_isEmergency (doc : Pickup) (sm : Bool) (now : Int) :
    (preSaveHook doc sm now).isEmergency = doc.isEmergency := by
  unfold preSaveHook
  rw [preSavePriorityFix_isEmergency, preSaveStatusPush_isEmergency]

/-- The hook reestablishes the emergency-priority invariant. -/
theorem preSaveHook_emergency (doc : Pickup) (sm : Bool) (now : Int)
    (h : (preSaveHook doc sm now).isEmergency = true) :
    (preSaveHook doc sm now).priority = "urgent" := by
  unfold preSaveHook at h ⊢
  rw [preSavePriorityFix_isEmergency] at h
  exact preSavePriorityFix_emergency _ h

/-- Shape of a successful `create`: the stored and returned document is the
pre-save-hooked `createDoc`. -/
theorem repoCreate_ok_shape (store : Store) (now : Int) (freshId : String) (data : PickupInput)
    (store1 : Store) (p : Pickup)
    (h : repoCreate store now freshId data = Except.ok (store1, p)) :
    ∃ w v, data.wasteType = some w ∧ data.volumeKg = some v ∧
      p = preSaveHook (createDoc freshId now data w v) true now ∧
      store1 = store ++ [p] := by
  unfold repoCreate at h
  split at h
  · exact absurd h (by simp)
  · split at h
    · exact absurd h (by simp)
    · rename_i w hw
      split at h
      · exact absurd h (by simp)
      · split at h
        · exact absurd h (by simp)
        · rename_i v hv
          split at h
          · exact absurd h (by simp)
          · split at h
            · exact absurd h (by simp)
            · split at h
              · simp only [Except.ok.injEq, Prod.mk.injEq] at h
                exact ⟨w, v, hw, hv, h.2.symm, by rw [← h.1, h.2]⟩
              · exact absurd h (by simp)

theorem createDoc_status (freshId : String) (now : Int) (data : PickupInput) (w : String)
    (v : Rat) : (createDoc freshId now data w v).status = "pending" := rfl

theorem createDoc_history (freshId : String) (now : Int) (data : PickupInput) (w : String)
    (v : Rat) : (createDoc freshId now data w v).statusHistory = [⟨"pending", none, now⟩] := rfl

/-- C5 as amended: every document accepted by `PickupRepository.create` is
stored with status `pending` and with a status history of exactly two pending
entries — the single entry the repository writes plus the duplicate the
schema pre-save hook appends — regardless of any caller-supplied status or
status history. -/
theorem claim_C5_amended (store : Store) (now : Int) (freshId : String) (data : PickupInput)
    (store1 : Store) (p : Pickup)
    (h : repoCreate store now freshId data = Except.ok (store1, p)) :
    p.status = "pending" ∧
    p.statusHistory.map StatusEntry.status = ["pending", "pending"] ∧
    store1 = store ++ [p] := by
  obtain ⟨w, v, _, _, hp, hstore⟩ := repoCreate_ok_shape store now freshId data store1 p h
  subst hp
  refine ⟨?_, ?_, hstore⟩
  · rw [preSaveHook_status, createDoc_status]
  · rw [preSaveHook_history_true, createDoc_history, createDoc_status]
    rfl

/-- C5 counterexample: on a concrete accepted input the created request has
status pending but its status history has two entries, not the single entry
the claim states. -/
theorem claim_C5_counterexample :
    repoCreate [] 0 "b" createInputA = Except.ok ([createdDocB], createdDocB) ∧
    createdDocB.status = "pending" ∧
    createdDocB.statusHistory.length = 2 := by
  refine ⟨?_, rfl, rfl⟩
  rfl

/-- Witness for the amended C5 at the concrete input `createInputA`. -/
theorem claim_C5_witness :
    createdDocB.status = "pending" ∧
    createdDocB.statusHistory.map StatusEntry.status = ["pending", "pending"] ∧
    [createdDocB] = [] ++ [createdDocB] :=
  claim_C5_amended [] 0 "b" createInputA [createdDocB] createdDocB rfl

/-! Cache faithfulness lemmas. -/

theorem jsMapGet_delete_sub {α : Type} (m : JsMap α) (k k' : String) (e : α)
    (h : jsMapGet (jsMapDelete m k) k' = some e) : jsMapGet m k' = some e := by
  by_cases hkk : k = k'
  · subst hkk
    rw [jsMapGet_delete_self] at h
    exact absurd h (by simp)
  · rw [jsMapGet_delete_ne m k k' hkk] at h
    exact h

theorem getCacheValue_snd_sub {α : Type} (cache : JsMap (TimedVal α)) (key : String)
    (now : Int) (k' : String) (e : TimedVal α)
    (h : jsMapGet (getCacheValue cache key now).2 k' = some e) : jsMapGet cache k' = some e := by
  unfold getCacheValue at h
  cases hg : jsMapGet cache key with
  | none => rw [hg] at h; exact h
  | some cached =>
      rw [hg] at h
      dsimp only at h
      by_cases hexp : CACHE_TTL < now - cached.timestamp
      · rw [if_pos hexp] at h
        exact jsMapGet_delete_sub _ _ _ _ h
      · rw [if_neg hexp] at h
        exact h

theorem getCacheValue_hit {α : Type} (cache : JsMap (TimedVal α)) (key : String) (now : Int)
    (v : α) (cache' : JsMap (TimedVal α)) (h : getCacheValue cache key now = (some v, cache')) :
    ∃ e : TimedVal α, jsMapGet cache key = some e ∧ e.value = v ∧ cache' = cache := by
  unfold getCacheValue at h
  cases hg : jsMapGet cache key with
  | none => rw [hg] at h; exact absurd h (by simp)
  | some cached =>
      rw [hg] at h
      dsimp only at h
      by_cases hexp : CACHE_TTL < now - cached.timestamp
      · rw [if_pos hexp] at h
        exact absurd h (by simp)
      · rw [if_neg hexp] at h
        simp only [Prod.mk.injEq, Option.some.injEq] at h
        exact ⟨cached, rfl, h.1, h.2.symm⟩

theorem jsMapGet_setCacheValue_cases {α : Type} (m : JsMap (TimedVal α)) (k : String) (v : α)
    (t : Int) (k' : String) (e : TimedVal α)
    (h : jsMapGet (setCacheValue m k v t) k' = some e) :
    (k' = k ∧ e = ⟨v, t⟩) ∨ jsMapGet m k' = some e := by
  unfold setCacheValue at h
  by_cases hkk : k' = k
  · subst hkk
    rw [jsMapGet_set_self] at h
    refine Or.inl ⟨rfl, ?_⟩
    injection h with h1
    exact h1.symm
  · rw [jsMapGet_set_ne _ _ _ _ (fun hc => hkk hc.symm)] at h
    right
    unfold setCacheEvict at h
    split at h
    · split at h
      · exact jsMapGet_delete_sub _ _ _ _ h
      · exact h
    · exact h

theorem pickupKey_inj (a b : String) (h : "pickup:" ++ a = "pickup:" ++ b) : a = b := by
  have hd := congrArg String.data h
  simp only [String.data_append] at hd
  exact String.ext (List.append_cancel_left hd)

/-- With a faithful cache, a successful `findById` returns exactly the active
stored document. -/
theorem repoFindById_ok (cache : PickupCache) (store : Store) (now : Int) (id : String)
    (cache' : PickupCache) (d : Pickup) (hf : cacheFaithful store cache)
    (h : repoFindById cache store now id = (cache', Except.ok d)) :
    storeFindActive store id = some d := by
  unfold repoFindById at h
  rcases hgc : getCacheValue cache ("pickup:" ++ id) now with ⟨o, c1⟩
  rw [hgc] at h
  cases o with
  | some v =>
      dsimp only at h
      obtain ⟨e, hge, hev, _⟩ := getCacheValue_hit cache _ now v c1 hgc
      have hfa := hf id e hge
      simp only [Prod.mk.injEq, Except.ok.injEq] at h
      rw [hfa, hev, h.2]
  | none =>
      dsimp only at h
      cases hsf : storeFindActive store id with
      | none => rw [hsf] at h; exact absurd h (by simp)
      | some request =>
          rw [hsf] at h
          simp only [Prod.mk.injEq, Except.ok.injEq] at h
          rw [h.2]

/-- `findById` preserves cache faithfulness, whatever id it is called with. -/
theorem repoFindById_faithful (cache : PickupCache) (store : Store) (now : Int) (queried : String)
    (hf : cacheFaithful store cache) :
    cacheFaithful store (repoFindById cache store now queried).1 := by
  intro id e hget
  unfold repoFindById at hget
  rcases hgc : getCacheValue cache ("pickup:" ++ queried) now with ⟨o, c1⟩
  rw [hgc] at hget
  have hc1 : ∀ (k' : String) (e' : TimedVal Pickup),
      jsMapGet c1 k' = some e' → jsMapGet cache k' = some e' := by
    intro k' e' hx
    have hc : c1 = (getCacheValue cache ("pickup:" ++ queried) now).2 := by rw [hgc]
    rw [hc] at hx
    exact getCacheValue_snd_sub _ _ _ _ _ hx
  cases o with
  | some v =>
      dsimp only at hget
      exact hf id e (hc1 _ _ hget)
  | none =>
      dsimp only at hget
      cases hsf : storeFindActive store queried with
      | none => rw [hsf] at hget; exact hf id e (hc1 _ _ hget)
      | some request =>
          rw [hsf] at hget
          dsimp only at hget
          rcases jsMapGet_setCacheValue_cases c1 _ request now _ e hget with ⟨hkey, hev⟩ | hold
          · have hid : id = queried := pickupKey_inj _ _ hkey
            subst hid
            rw [hsf, hev]
          · exact hf id e (hc1 _ _ hold)

theorem storeFindActive_props (store : Store) (id : String) (p : Pickup)
    (h : storeFindActive store id = some p) : p.id = id ∧ p.isDeleted = false := by
  have hp := List.find?_some h
  simp only [Bool.and_eq_true, beq_iff_eq, Bool.not_eq_eq_eq_not, Bool.not_true] at hp
  exact hp

/-- With unique ids, the id-only lookup agrees with the active lookup. -/
theorem storeFindAny_of_active (store : Store) (id : String) (p : Pickup)
    (hwf : storeWF store) (h : storeFindActive store id = some p) :
    storeFindAny store id = some p := by
  induction store with
  | nil => exact absurd h (by simp [storeFindActive])
  | cons q rest ih =>
      have hwf' : (rest.map Pickup.id).Nodup ∧ q.id ∉ rest.map Pickup.id := by
        have := hwf
        rw [storeWF, List.map_cons, List.nodup_cons] at this
        exact ⟨this.2, this.1⟩
      by_cases hq : q.id = id
      · by_cases hdel : q.isDeleted
        · exfalso
          unfold storeFindActive at h
          rw [List.find?_cons_of_neg _ (by simp [hq, hdel])] at h
          have hmem := List.mem_of_find?_eq_some h
          have hpid : p.id = id := (storeFindActive_props rest id p h).1
          exact hwf'.2 (List.mem_map.mpr ⟨p, hmem, by rw [hpid, hq]⟩)
        · unfold storeFindActive at h
          rw [List.find?_cons_of_pos _ (by simp [hq, hdel])] at h
          unfold storeFindAny
          rw [List.find?_cons_of_pos _ (by simp [hq])]
          exact h
      · unfold storeFindActive at h
        rw [List.find?_cons_of_neg _ (by simp [hq])] at h
        unfold storeFindAny
        rw [List.find?_cons_of_neg _ (by simp [hq])]
        exact ih (by rw [storeWF]; exact hwf'.1) h

theorem applyUpdateData_priority (doc : Pickup) (u : UpdateData) :
    (applyUpdateData doc u).priority = u.priority.getD doc.priority := rfl

theorem applyUpdateData_isEmergency (doc : Pickup) (u : UpdateData) :
    (applyUpdateData doc u).isEmergency = u.isEmergency.getD doc.isEmergency := rfl

theorem buildUpdateDoc_priority (u : UpdateData) (r : Pickup) (now : Int) :
    (buildUpdateDoc u r now).priority = u.priority := rfl

theorem buildUpdateDoc_isEmergency (u : UpdateData) (r : Pickup) (now : Int) :
    (buildUpdateDoc u r now).isEmergency = u.isEmergency := rfl

/-- Shape of a successful status-free `update`: the stored and returned
document is the `$set` of the built update onto the id-matched document, so
its priority and emergency flag come from the update data and that document. -/
theorem repoUpdate_ok_fields (cache : PickupCache) (store : Store) (now : Int) (id : String)
    (u : UpdateData) (cache2 : PickupCache) (store1 : Store) (p : Pickup)
    (hst : u.status = none) (hem : u.isEmergency = none)
    (h : repoUpdate cache store now id u = (cache2, Except.ok (store1, p))) :
    ∃ doc, storeFindAny store id = some doc ∧
      p.priority = u.priority.getD doc.priority ∧ p.isEmergency = doc.isEmergency := by
  unfold repoUpdate at h
  by_cases h1 : optStatusInvalid u.status = true
  · rw [if_pos h1] at h
    exact absurd h (by simp)
  · rw [if_neg h1] at h
    by_cases h2 : optWasteTypeInvalid u.wasteType = true
    · rw [if_pos h2] at h
      exact absurd h (by simp)
    · rw [if_neg h2] at h
      by_cases h3 : optVolumeInvalid u.volumeKg = true
      · rw [if_pos h3] at h
        exact absurd h (by simp)
      · rw [if_neg h3] at h
        rcases hfb : repoFindById cache store now id with ⟨c1, r⟩
        rw [hfb] at h
        cases r with
        | error e =>
            dsimp only at h
            exact absurd h (by simp)
        | ok request =>
            dsimp only at h
            rw [hst] at h
            simp only [optTruthy, Bool.false_and, Bool.false_eq_true, if_false] at h
            cases hbu : baseUpdate store id (buildUpdateDoc u request now) with
            | error e2 =>
                rw [hbu] at h
                dsimp only at h
                exact absurd h (by simp)
            | ok sp =>
                rw [hbu] at h
                rcases sp with ⟨s1, doc1⟩
                dsimp only at h
                simp only [Prod.mk.injEq, Except.ok.injEq] at h
                unfold baseUpdate at hbu
                cases hany : storeFindAny store id with
                | none =>
                    rw [hany] at hbu
                    dsimp only at hbu
                    exact absurd hbu (by simp)
                | some doc =>
                    rw [hany] at hbu
                    dsimp only at hbu
                    by_cases hval : updateValidators (buildUpdateDoc u request now) = true
                    · rw [if_pos hval] at hbu
                      simp only [Except.ok.injEq, Prod.mk.injEq] at hbu
                      refine ⟨doc, rfl, ?_, ?_⟩
                      · rw [← h.2.2, ← hbu.2, applyUpdateData_priority, buildUpdateDoc_priority]
                      · rw [← h.2.2, ← hbu.2, applyUpdateData_isEmergency,
                          buildUpdateDoc_isEmergency, hem]
                        rfl
                    · rw [if_neg hval] at hbu
                      exact absurd hbu (by simp)

/-- C9: the emergency-priority invariant.  Every document accepted by
`create` that is an emergency has priority urgent; the pre-save hook forces
the priority to urgent on every emergency document; and `updatePriority` —
run against a faithful cache over a well-formed collection — only ever
stores priority urgent on an emergency document, because it rejects every
other priority for one. -/
theorem claim_C9 :
    (∀ (store : Store) (now : Int) (freshId : String) (data : PickupInput)
        (store1 : Store) (p : Pickup),
      repoCreate store now freshId data = Except.ok (store1, p) →
      p.isEmergency = true → p.priority = "urgent") ∧
    (∀ (doc : Pickup) (sm : Bool) (now : Int),
      (preSaveHook doc sm now).isEmergency = true →
      (preSaveHook doc sm now).priority = "urgent") ∧
    (∀ (cache : PickupCache) (store : Store) (now : Int) (id priority note : String)
        (cache2 : PickupCache) (store1 : Store) (p : Pickup),
      cacheFaithful store cache → storeWF store →
      updatePriority cache store now id priority note = (cache2, Except.ok (store1, p)) →
      p.isEmergency = true → p.priority = "urgent") := by
  refine ⟨?_, ?_, ?_⟩
  · intro store now freshId data store1 p h hem
    obtain ⟨w, v, _, _, hp, _⟩ := repoCreate_ok_shape store now freshId data store1 p h
    subst hp
    exact preSaveHook_emergency _ _ _ hem
  · intro doc sm now h
    exact preSaveHook_emergency doc sm now h
  · intro cache store now id priority note cache2 store1 p hf hwf h hem
    unfold updatePriority at h
    by_cases h0 : (!validPriorities.contains priority) = true
    · rw [if_pos h0] at h
      exact absurd h (by simp)
    · rw [if_neg h0] at h
      rcases hfb : repoFindById cache store now id with ⟨c1, r⟩
      rw [hfb] at h
      cases r with
      | error e =>
          dsimp only at h
          exact absurd h (by simp)
      | ok request =>
          dsimp only at h
          by_cases hguard : (request.isEmergency && priority != "urgent") = true
          · rw [if_pos hguard] at h
            exact absurd h (by simp)
          · rw [if_neg hguard] at h
            rcases hup : repoUpdate c1 store now id
                (priorityUpdateData request priority note now) with ⟨c2, r2⟩
            rw [hup] at h
            cases r2 with
            | error e =>
                dsimp only at h
                exact absurd h (by simp)
            | ok sp =>
                rcases sp with ⟨s1, updated⟩
                dsimp only at h
                simp only [Prod.mk.injEq, Except.ok.injEq] at h
                obtain ⟨doc, hany, hppr, hpem⟩ := repoUpdate_ok_fields c1 store now id
                  (priorityUpdateData request priority note now) c2 s1 updated rfl rfl hup
                have hactive : storeFindActive store id = some request :=
                  repoFindById_ok cache store now id c1 request hf hfb
                have hany2 : storeFindAny store id = some request :=
                  storeFindAny_of_active store id request hwf hactive
                have hreq : doc = request := by
                  rw [hany2] at hany
                  injection hany with hd
                  exact hd.symm
                have hemu : updated.isEmergency = true := by
                  rw [h.2.2]
                  exact hem
                rw [hpem, hreq] at hemu
                have hpru : ¬ (priority != "urgent") = true := by
                  intro hne
                  exact hguard (by simp [hemu, hne])
                rw [← h.2.2, hppr]
                have : priority = "urgent" := by simpa using hpru
                rw [this]
                rfl

/-- Witness for C9: a concrete emergency creation stores priority urgent,
and the hook at a concrete emergency document forces urgent. -/
theorem claim_C9_witness :
    createdDocE.priority = "urgent" ∧
    (preSaveHook { docPendingA with isEmergency := true, priority := "low" } false 0).priority
      = "urgent" :=
  ⟨claim_C9.1 [] 0 "e" createInputE [createdDocE] createdDocE rfl rfl,
    claim_C9.2.1 { docPendingA with isEmergency := true, priority := "low" } false 0 rfl⟩

/-! Terminal-state and bulk-loop lemmas. -/

theorem validateStatusTransition_terminal (s t : String)
    (h : s = "collected" ∨ s = "cancelled") :
    PickupRequestSchema.validateStatusTransition s t =
      Except.error ("Invalid status transition from " ++ s ++ " to " ++ t) := by
  rcases h with rfl | rfl <;>
    simp [PickupRequestSchema.validateStatusTransition, PickupRequestSchema.validTransitions]

theorem buildUpdateDoc_status (u : UpdateData) (r : Pickup) (now : Int) :
    (buildUpdateDoc u r now).status = u.status := rfl

theorem updateValidators_false_of_status (u : UpdateData) (s : String)
    (hs : u.status = some s) (hmem : pickupStatuses.contains s = false) :
    updateValidators u = false := by
  unfold updateValidators
  rw [hs]
  dsimp only
  rw [hmem]
  simp

theorem bulkUpdateValidateEntry_faithful (cache : PickupCache) (store : Store) (now : Int)
    (u : BulkStatusUpdate) (hf : cacheFaithful store cache) :
    cacheFaithful store (bulkUpdateValidateEntry cache store now u).1 := by
  unfold bulkUpdateValidateEntry
  by_cases hm : (!(optTruthy u.id && optTruthy u.status)) = true
  · rw [if_pos hm]
    exact hf
  · rw [if_neg hm]
    cases hid : u.id with
    | none => exact hf
    | some id =>
        cases hs : u.status with
        | none => exact hf
        | some s =>
            dsimp only
            rcases hfb : repoFindById cache store now id with ⟨c1, r⟩
            have hc1 : cacheFaithful store c1 := by
              have hpres := repoFindById_faithful cache store now id hf
              rw [hfb] at hpres
              exact hpres
            cases r with
            | error e => exact hc1
            | ok pickup =>
                dsimp only
                cases hvt : PickupRequestSchema.validateStatusTransition pickup.status s with
                | error m => exact hc1
                | ok uu => exact hc1

theorem bulkUpdateValidateEntry_err (cache : PickupCache) (store : Store) (now : Int)
    (u : BulkStatusUpdate) (id : String) (p : Pickup) (hf : cacheFaithful store cache)
    (hid : u.id = some id) (hp : storeFindActive store id = some p)
    (hterm : p.status = "collected" ∨ p.status = "cancelled") :
    ∃ msg, (bulkUpdateValidateEntry cache store now u).2 = Except.error msg := by
  unfold bulkUpdateValidateEntry
  by_cases hm : (!(optTruthy u.id && optTruthy u.status)) = true
  · rw [if_pos hm]
    exact ⟨_, rfl⟩
  · rw [if_neg hm]
    rw [hid]
    cases hs : u.status with
    | none => exact absurd (by simp [hid, hs, optTruthy]) hm
    | some s =>
        dsimp only
        rcases hfb : repoFindById cache store now id with ⟨c1, r⟩
        cases r with
        | error e => exact ⟨_, rfl⟩
        | ok pickup =>
            dsimp only
            have hps : pickup = p := by
              have hx := repoFindById_ok cache store now id c1 pickup hf hfb
              rw [hp] at hx
              injection hx with hd
              exact hd.symm
            rw [validateStatusTransition_terminal pickup.status s (by rw [hps]; exact hterm)]
            exact ⟨_, rfl⟩

theorem bulkAssignValidateEntry_faithful (cache : PickupCache) (store : Store) (now : Int)
    (a : BulkAssignment) (hf : cacheFaithful store cache) :
    cacheFaithful store (bulkAssignValidateEntry cache store now a).1 := by
  unfold bulkAssignValidateEntry
  by_cases hm : (!(optTruthy a.pickupId && optTruthy a.collectorId)) = true
  · rw [if_pos hm]
    exact hf
  · rw [if_neg hm]
    cases hid : a.pickupId with
    | none => exact hf
    | some pid =>
        cases hc : a.collectorId with
        | none => exact hf
        | some cid =>
            dsimp only
            rcases hfb : repoFindById cache store now pid with ⟨c1, r⟩
            have hc1 : cacheFaithful store c1 := by
              have hpres := repoFindById_faithful cache store now pid hf
              rw [hfb] at hpres
              exact hpres
            cases r with
            | error e => exact hc1
            | ok pickup =>
                dsimp only
                by_cases hst : (pickup.status != "pending") = true
                · rw [if_pos hst]
                  exact hc1
                · rw [if_neg hst]
                  exact hc1

theorem bulkAssignValidateEntry_err (cache : PickupCache) (store : Store) (now : Int)
    (a : BulkAssignment) (id : String) (p : Pickup) (hf : cacheFaithful store cache)
    (hid : a.pickupId = some id) (hp : storeFindActive store id = some p)
    (hterm : p.status = "collected" ∨ p.status = "cancelled") :
    ∃ msg, (bulkAssignValidateEntry cache store now a).2 = Except.error msg := by
  unfold bulkAssignValidateEntry
  by_cases hm : (!(optTruthy a.pickupId && optTruthy a.collectorId)) = true
  · rw [if_pos hm]
    exact ⟨_, rfl⟩
  · rw [if_neg hm]
    rw [hid]
    cases hc : a.collectorId with
    | none => exact absurd (by simp [hid, hc, optTruthy]) hm
    | some cid =>
        dsimp only
        rcases hfb : repoFindById cache store now id with ⟨c1, r⟩
        cases r with
        | error e => exact ⟨_, rfl⟩
        | ok pickup =>
            dsimp only
            have hps : pickup = p := by
              have hx := repoFindById_ok cache store now id c1 pickup hf hfb
              rw [hp] at hx
              injection hx with hd
              exact hd.symm
            have hpend : (pickup.status != "pending") = true := by
              rw [hps]
              rcases hterm with hx | hx <;> rw [hx] <;> rfl
            rw [if_pos hpend]
            exact ⟨_, rfl⟩

theorem bulkUpdateStatusLoop_errs_ne (store : Store) (now : Int) (u : BulkStatusUpdate)
    (id : String) (p : Pickup) (hp : storeFindActive store id = some p)
    (hid : u.id = some id) (hterm : p.status = "collected" ∨ p.status = "cancelled") :
    ∀ (updates : List BulkStatusUpdate) (cache : PickupCache) (idx : Nat),
    cacheFaithful store cache → u ∈ updates →
    (bulkUpdateStatusLoop store now updates cache idx).2.2 ≠ [] := by
  intro updates
  induction updates with
  | nil =>
      intro cache idx _ hu
      cases hu
  | cons v rest ih =>
      intro cache idx hf hu
      unfold bulkUpdateStatusLoop
      rcases hv : bulkUpdateValidateEntry cache store now v with ⟨c1, r⟩
      have hf1 : cacheFaithful store c1 := by
        have hpres := bulkUpdateValidateEntry_faithful cache store now v hf
        rw [hv] at hpres
        exact hpres
      rcases List.mem_cons.mp hu with rfl | hmem
      · obtain ⟨msg, hmsg⟩ := bulkUpdateValidateEntry_err cache store now u id p hf hid hp hterm
        rw [hv] at hmsg
        cases r with
        | ok op => exact absurd hmsg (by simp)
        | error m =>
            rcases hrest : bulkUpdateStatusLoop store now rest c1 (idx + 1) with ⟨c2, ops, errs⟩
            simp
      · cases r with
        | ok op =>
            rcases hrest : bulkUpdateStatusLoop store now rest c1 (idx + 1) with ⟨c2, ops, errs⟩
            have hne := ih c1 (idx + 1) hf1 hmem
            rw [hrest] at hne
            dsimp only
            rw [hrest]
            simpa using hne
        | error m =>
            rcases hrest : bulkUpdateStatusLoop store now rest c1 (idx + 1) with ⟨c2, ops, errs⟩
            simp

theorem bulkAssignCollectorsLoop_errs_ne (store : Store) (now : Int) (a : BulkAssignment)
    (id : String) (p : Pickup) (hp : storeFindActive store id = some p)
    (hid : a.pickupId = some id) (hterm : p.status = "collected" ∨ p.status = "cancelled") :
    ∀ (assignments : List BulkAssignment) (cache : PickupCache) (idx : Nat),
    cacheFaithful store cache → a ∈ assignments →
    (bulkAssignCollectorsLoop store now assignments cache idx).2.2 ≠ [] := by
  intro assignments
  induction assignments with
  | nil =>
      intro cache idx _ ha
      cases ha
  | cons v rest ih =>
      intro cache idx hf ha
      unfold bulkAssignCollectorsLoop
      rcases hv : bulkAssignValidateEntry cache store now v with ⟨c1, r⟩
      have hf1 : cacheFaithful store c1 := by
        have hpres := bulkAssignValidateEntry_faithful cache store now v hf
        rw [hv] at hpres
        exact hpres
      rcases List.mem_cons.mp ha with rfl | hmem
      · obtain ⟨msg, hmsg⟩ := bulkAssignValidateEntry_err cache store now a id p hf hid hp hterm
        rw [hv] at hmsg
        cases r with
        | ok op => exact absurd hmsg (by simp)
        | error m =>
            rcases hrest : bulkAssignCollectorsLoop store now rest c1 (idx + 1) with ⟨c2, ops, errs⟩
            simp
      · cases r with
        | ok op =>
            rcases hrest : bulkAssignCollectorsLoop store now rest c1 (idx + 1) with ⟨c2, ops, errs⟩
            have hne := ih c1 (idx + 1) hf1 hmem
            rw [hrest] at hne
            dsimp only
            rw [hrest]
            simpa using hne
        | error m =>
            rcases hrest : bulkAssignCollectorsLoop store now rest c1 (idx + 1) with ⟨c2, ops, errs⟩
            simp

theorem bulkUpdateStatusLoop_length (store : Store) (now : Int) :
    ∀ (updates : List BulkStatusUpdate) (cache : PickupCache) (idx : Nat),
    (bulkUpdateStatusLoop store now updates cache idx).2.1.length +
      (bulkUpdateStatusLoop store now updates cache idx).2.2.length = updates.length := by
  intro updates
  induction updates with
  | nil =>
      intro cache idx
      rfl
  | cons v rest ih =>
      intro cache idx
      unfold bulkUpdateStatusLoop
      rcases hv : bulkUpdateValidateEntry cache store now v with ⟨c1, r⟩
      rcases hrest : bulkUpdateStatusLoop store now rest c1 (idx + 1) with ⟨c2, ops, errs⟩
      have hlen := ih c1 (idx + 1)
      rw [hrest] at hlen
      simp only at hlen
      cases r with
      | ok op =>
          dsimp only
          rw [hrest]
          dsimp only
          simp only [List.length_cons]
          omega
      | error m =>
          dsimp only
          rw [hrest]
          dsimp only
          simp only [List.length_cons]
          omega

theorem bulkAssignCollectorsLoop_length (store : Store) (now : Int) :
    ∀ (assignments : List BulkAssignment) (cache : PickupCache) (idx : Nat),
    (bulkAssignCollectorsLoop store now assignments cache idx).2.1.length +
      (bulkAssignCollectorsLoop store now assignments cache idx).2.2.length
      = assignments.length := by
  intro assignments
  induction assignments with
  | nil =>
      intro cache idx
      rfl
  | cons v rest ih =>
      intro cache idx
      unfold bulkAssignCollectorsLoop
      rcases hv : bulkAssignValidateEntry cache store now v with ⟨c1, r⟩
      rcases hrest : bulkAssignCollectorsLoop store now rest c1 (idx + 1) with ⟨c2, ops, errs⟩
      have hlen := ih c1 (idx + 1)
      rw [hrest] at hlen
      simp only at hlen
      cases r with
      | ok op =>
          dsimp only
          rw [hrest]
          dsimp only
          simp only [List.length_cons]
          omega
      | error m =>
          dsimp only
          rw [hrest]
          dsimp only
          simp only [List.length_cons]
          omega

/-- C3 as amended: provided the repository cache holds no stale copy of the
request (every cached entry equals the stored active document), every
status-changing operation on a request whose current status is collected or
cancelled fails with an error and leaves the collection unchanged — `update`
with a different target status returns an error (and on error no write
happens), and a bulk status update or bulk collector assignment containing an
entry for the request throws and writes nothing.  Without that proviso the
claim is false: bulk writes do not invalidate the cache
(`claim_C3_counterexample`). -/
theorem claim_C3 (cache : PickupCache) (store : Store) (now : Int) (id : String) (p : Pickup)
    (hf : cacheFaithful store cache) (hp : storeFindActive store id = some p)
    (hterm : p.status = "collected" ∨ p.status = "cancelled") :
    (∀ (data : UpdateData) (s : String), data.status = some s → s ≠ p.status →
      exceptOk (repoUpdate cache store now id data).2 = false) ∧
    (∀ (updates : List BulkStatusUpdate) (u : BulkStatusUpdate),
      u ∈ updates → u.id = some id →
      (bulkUpdateStatus cache store now updates).2.1 = store ∧
      exceptOk (bulkUpdateStatus cache store now updates).2.2 = false) ∧
    (∀ (assignments : List BulkAssignment) (a : BulkAssignment),
      a ∈ assignments → a.pickupId = some id →
      (bulkAssignCollectors cache store now assignments).2.1 = store ∧
      exceptOk (bulkAssignCollectors cache store now assignments).2.2 = false) := by
  refine ⟨?_, ?_, ?_⟩
  · intro data s hs hsne
    unfold repoUpdate
    by_cases h1 : optStatusInvalid data.status = true
    · rw [if_pos h1]
      rfl
    · rw [if_neg h1]
      by_cases h2 : optWasteTypeInvalid data.wasteType = true
      · rw [if_pos h2]
        rfl
      · rw [if_neg h2]
        by_cases h3 : optVolumeInvalid data.volumeKg = true
        · rw [if_pos h3]
          rfl
        · rw [if_neg h3]
          rcases hfb : repoFindById cache store now id with ⟨c1, r⟩
          cases r with
          | error e => rfl
          | ok request =>
              dsimp only
              have hreq : request = p := by
                have hx := repoFindById_ok cache store now id c1 request hf hfb
                rw [hp] at hx
                injection hx with hd
                exact hd.symm
              by_cases hse : s = ""
              · subst hse
                have hot : optTruthy data.status = false := by rw [hs]; rfl
                simp only [hot, Bool.false_and, Bool.false_eq_true, if_false]
                have hbval : updateValidators (buildUpdateDoc data request now) = false :=
                  updateValidators_false_of_status _ ""
                    (by rw [buildUpdateDoc_status, hs]) (by decide)
                unfold baseUpdate
                cases hany : storeFindAny store id with
                | none => rfl
                | some doc =>
                    dsimp only
                    rw [hbval]
                    rfl
              · rcases hterm with hcol | hcan
                · have hg1 : (optTruthy data.status && request.status == "collected"
                      && data.status != some "collected") = true := by
                    rw [hs, hreq, hcol]
                    simp [optTruthy, hse, show s ≠ "collected" from by rw [← hcol]; exact hsne]
                  rw [if_pos hg1]
                  rfl
                · have hg1f : (optTruthy data.status && request.status == "collected"
                      && data.status != some "collected") = false := by
                    rw [hreq, hcan]
                    simp
                  rw [if_neg (by rw [hg1f]; exact Bool.false_ne_true)]
                  have hg2 : (optTruthy data.status && request.status == "cancelled"
                      && data.status != some "cancelled") = true := by
                    rw [hs, hreq, hcan]
                    simp [optTruthy, hse, show s ≠ "cancelled" from by rw [← hcan]; exact hsne]
                  rw [if_pos hg2]
                  rfl
  · intro updates u hu hid
    rcases hloop : bulkUpdateStatusLoop store now updates cache 0 with ⟨c1, ops, errs⟩
    have herrs : errs ≠ [] := by
      have hx := bulkUpdateStatusLoop_errs_ne store now u id p hp hid hterm updates cache 0 hf hu
      rw [hloop] at hx
      simpa using hx
    unfold bulkUpdateStatus
    rw [hloop]
    dsimp only
    rw [if_pos (by simpa using List.length_pos.mpr herrs)]
    exact ⟨rfl, rfl⟩
  · intro assignments a ha hid
    rcases hloop : bulkAssignCollectorsLoop store now assignments cache 0 with ⟨c1, ops, errs⟩
    have herrs : errs ≠ [] := by
      have hx := bulkAssignCollectorsLoop_errs_ne store now a id p hp hid hterm
        assignments cache 0 hf ha
      rw [hloop] at hx
      simpa using hx
    unfold bulkAssignCollectors
    rw [hloop]
    dsimp only
    rw [if_pos (by simpa using List.length_pos.mpr herrs)]
    exact ⟨rfl, rfl⟩

/-- C3 counterexample: the claim as stated is false on the code.  The cache
still holds the assigned version of request `a` (bulk writes never invalidate
the cache), the collection holds it as collected; a bulk status update to
cancelled then succeeds and moves the collected request to cancelled. -/
theorem claim_C3_counterexample :
    docCollectedA.status = "collected" ∧
    storeFindActive [docCollectedA] "a" = some docCollectedA ∧
    exceptOk (bulkUpdateStatus staleCacheA [docCollectedA] 0
      [⟨some "a", some "cancelled", none⟩]).2.2 = true ∧
    (storeFindActive (bulkUpdateStatus staleCacheA [docCollectedA] 0
      [⟨some "a", some "cancelled", none⟩]).2.1 "a").map Pickup.status
      = some "cancelled" := by
  refine ⟨rfl, rfl, rfl, rfl⟩

/-- Witness for the amended C3 with an empty cache over a collected request. -/
theorem claim_C3_witness :
    exceptOk (repoUpdate [] [docCollectedA] 0 "a"
      { emptyUpdate with status := some "pending" }).2 = false ∧
    ((bulkUpdateStatus [] [docCollectedA] 0 [⟨some "a", some "cancelled", none⟩]).2.1
        = [docCollectedA] ∧
      exceptOk (bulkUpdateStatus [] [docCollectedA] 0
        [⟨some "a", some "cancelled", none⟩]).2.2 = false) ∧
    ((bulkAssignCollectors [] [docCollectedA] 0 [⟨some "a", some "k", none⟩]).2.1
        = [docCollectedA] ∧
      exceptOk (bulkAssignCollectors [] [docCollectedA] 0
        [⟨some "a", some "k", none⟩]).2.2 = false) := by
  have hc3 := claim_C3 [] [docCollectedA] 0 "a" docCollectedA
    (by intro i e hg; exact absurd hg (by simp [jsMapGet])) rfl (Or.inl rfl)
  exact ⟨hc3.1 { emptyUpdate with status := some "pending" } "pending" rfl (by decide),
    hc3.2.1 [⟨some "a", some "cancelled", none⟩] ⟨some "a", some "cancelled", none⟩
      (by simp) rfl,
    hc3.2.2 [⟨some "a", some "k", none⟩] ⟨some "a", some "k", none⟩ (by simp) rfl⟩

/-- C2 as amended: the bulk operations validate every entry, producing
exactly one write op or one recorded per-entry error per entry; when any
entry is invalid they throw a `ValidationError` (whose constructor discards
the per-entry error list) and write nothing; only when every entry is valid
do they apply all the writes in one `bulkWrite` with `ordered: false` and no
transaction.  The claim as stated — that writes are still applied for the
valid entries of a partially invalid batch — is refuted by
`claim_C2_counterexample`. -/
theorem claim_C2 (cache : PickupCache) (store : Store) (now : Int) :
    (∀ updates : List BulkStatusUpdate,
      (bulkUpdateStatusLoop store now updates cache 0).2.1.length +
        (bulkUpdateStatusLoop store now updates cache 0).2.2.length = updates.length) ∧
    (∀ updates : List BulkStatusUpdate,
      (bulkUpdateStatusLoop store now updates cache 0).2.2 ≠ [] →
      (bulkUpdateStatus cache store now updates).2.1 = store ∧
      (bulkUpdateStatus cache store now updates).2.2 =
        Except.error (ValidationError "Bulk update validation failed")) ∧
    (∀ updates : List BulkStatusUpdate,
      (bulkUpdateStatusLoop store now updates cache 0).2.2 = [] → updates ≠ [] →
      (bulkUpdateStatus cache store now updates).2.1 =
        applyBulkOps store (bulkUpdateStatusLoop store now updates cache 0).2.1 ∧
      (bulkUpdateStatus cache store now updates).2.2 =
        Except.ok ⟨true,
          bulkMatchedCount store (bulkUpdateStatusLoop store now updates cache 0).2.1,
          bulkMatchedCount store (bulkUpdateStatusLoop store now updates cache 0).2.1,
          some ⟨(bulkUpdateStatusLoop store now updates cache 0).2.1, false⟩⟩) ∧
    (∀ assignments : List BulkAssignment,
      (bulkAssignCollectorsLoop store now assignments cache 0).2.1.length +
        (bulkAssignCollectorsLoop store now assignments cache 0).2.2.length
        = assignments.length) ∧
    (∀ assignments : List BulkAssignment,
      (bulkAssignCollectorsLoop store now assignments cache 0).2.2 ≠ [] →
      (bulkAssignCollectors cache store now assignments).2.1 = store ∧
      (bulkAssignCollectors cache store now assignments).2.2 =
        Except.error (ValidationError "Bulk assignment validation failed")) ∧
    (∀ assignments : List BulkAssignment,
      (bulkAssignCollectorsLoop store now assignments cache 0).2.2 = [] → assignments ≠ [] →
      (bulkAssignCollectors cache store now assignments).2.1 =
        applyBulkOps store (bulkAssignCollectorsLoop store now assignments cache 0).2.1 ∧
      (bulkAssignCollectors cache store now assignments).2.2 =
        Except.ok ⟨true,
          bulkMatchedCount store (bulkAssignCollectorsLoop store now assignments cache 0).2.1,
          bulkMatchedCount store (bulkAssignCollectorsLoop store now assignments cache 0).2.1,
          some ⟨(bulkAssignCollectorsLoop store now assignments cache 0).2.1, false⟩⟩) := by
  refine ⟨fun updates => bulkUpdateStatusLoop_length store now updates cache 0, ?_, ?_,
    fun assignments => bulkAssignCollectorsLoop_length store now assignments cache 0, ?_, ?_⟩
  · intro updates herrs
    rcases hloop : bulkUpdateStatusLoop store now updates cache 0 with ⟨c1, ops, errs⟩
    rw [hloop] at herrs
    unfold bulkUpdateStatus
    rw [hloop]
    dsimp only
    rw [if_pos (by simpa using List.length_pos.mpr (by simpa using herrs))]
    exact ⟨rfl, rfl⟩
  · intro updates herrs hne
    have hlen := bulkUpdateStatusLoop_length store now updates cache 0
    rcases hloop : bulkUpdateStatusLoop store now updates cache 0 with ⟨c1, ops, errs⟩
    rw [hloop] at herrs hlen
    simp only at herrs hlen
    have hops : 0 < ops.length := by
      rw [herrs] at hlen
      simp at hlen
      rw [hlen]
      exact List.length_pos.mpr hne
    unfold bulkUpdateStatus
    rw [hloop]
    dsimp only
    rw [if_neg (by rw [herrs]; simp), if_pos (by simpa using hops)]
    exact ⟨rfl, rfl⟩
  · intro assignments herrs
    rcases hloop : bulkAssignCollectorsLoop store now assignments cache 0 with ⟨c1, ops, errs⟩
    rw [hloop] at herrs
    unfold bulkAssignCollectors
    rw [hloop]
    dsimp only
    rw [if_pos (by simpa using List.length_pos.mpr (by simpa using herrs))]
    exact ⟨rfl, rfl⟩
  · intro assignments herrs hne
    have hlen := bulkAssignCollectorsLoop_length store now assignments cache 0
    rcases hloop : bulkAssignCollectorsLoop store now assignments cache 0 with ⟨c1, ops, errs⟩
    rw [hloop] at herrs hlen
    simp only at herrs hlen
    have hops : 0 < ops.length := by
      rw [herrs] at hlen
      simp at hlen
      rw [hlen]
      exact List.length_pos.mpr hne
    unfold bulkAssignCollectors
    rw [hloop]
    dsimp only
    rw [if_neg (by rw [herrs]; simp), if_pos (by simpa using hops)]
    exact ⟨rfl, rfl⟩

/-- C2 counterexample: a batch with one valid entry (pending request `a` to
assigned) and one invalid entry (missing status) throws and applies no write
at all, although the same valid entry alone succeeds — so the code does not
apply the writes for the remaining valid entries. -/
theorem claim_C2_counterexample :
    exceptOk (bulkUpdateStatus [] [docPendingA] 0
      [⟨some "a", some "assigned", none⟩, ⟨some "b", none, none⟩]).2.2 = false ∧
    (bulkUpdateStatus [] [docPendingA] 0
      [⟨some "a", some "assigned", none⟩, ⟨some "b", none, none⟩]).2.1 = [docPendingA] ∧
    exceptOk (bulkUpdateStatus [] [docPendingA] 0
      [⟨some "a", some "assigned", none⟩]).2.2 = true := by
  refine ⟨rfl, rfl, rfl⟩

/-- Witness for the amended C2 at concrete batches. -/
theorem claim_C2_witness :
    ((bulkUpdateStatus [] [docPendingA] 0
        [⟨some "a", some "assigned", none⟩, ⟨some "b", none, none⟩]).2.1 = [docPendingA] ∧
      (bulkUpdateStatus [] [docPendingA] 0
        [⟨some "a", some "assigned", none⟩, ⟨some "b", none, none⟩]).2.2 =
        Except.error (ValidationError "Bulk update validation failed")) ∧
    ((bulkUpdateStatus [] [docPendingA] 0 [⟨some "a", some "assigned", none⟩]).2.1 =
        applyBulkOps [docPendingA]
          (bulkUpdateStatusLoop [docPendingA] 0 [⟨some "a", some "assigned", none⟩] [] 0).2.1 ∧
      (bulkUpdateStatus [] [docPendingA] 0 [⟨some "a", some "assigned", none⟩]).2.2 =
        Except.ok ⟨true,
          bulkMatchedCount [docPendingA]
            (bulkUpdateStatusLoop [docPendingA] 0 [⟨some "a", some "assigned", none⟩] [] 0).2.1,
          bulkMatchedCount [docPendingA]
            (bulkUpdateStatusLoop [docPendingA] 0 [⟨some "a", some "assigned", none⟩] [] 0).2.1,
          some ⟨(bulkUpdateStatusLoop [docPendingA] 0
            [⟨some "a", some "assigned", none⟩] [] 0).2.1, false⟩⟩) :=
  ⟨(claim_C2 [] [docPendingA] 0).2.1
      [⟨some "a", some "assigned", none⟩, ⟨some "b", none, none⟩] (by decide),
    (claim_C2 [] [docPendingA] 0).2.2.1 [⟨some "a", some "assigned", none⟩]
      (by decide) (by decide)⟩

/-! Trend lemmas: the weekly and monthly halves of the fold touch disjoint
components of the state, each row goes into exactly one (eventual) bucket. -/

theorem stepMonthly_weekly (st : TrendState) (stat : TimeStat) :
    (stepMonthly st stat).weekly = st.weekly := by
  unfold stepMonthly
  split <;> rfl

theorem stepMonthly_curWeek (st : TrendState) (stat : TimeStat) :
    (stepMonthly st stat).curWeek = st.curWeek := by
  unfold stepMonthly
  split <;> rfl

theorem stepWeekly_monthly (st : TrendState) (stat : TimeStat) :
    (stepWeekly st stat).monthly = st.monthly := by
  unfold stepWeekly
  split <;> rfl

theorem stepWeekly_curMonth (st : TrendState) (stat : TimeStat) :
    (stepWeekly st stat).curMonth = st.curMonth := by
  unfold stepWeekly
  split <;> rfl

theorem stepWeekly_week_count (st : TrendState) (stat : TimeStat) :
    ((stepWeekly st stat).weekly.map WeekBucket.count).sum + (stepWeekly st stat).curWeek.count
      = (st.weekly.map WeekBucket.count).sum + st.curWeek.count + stat.count := by
  unfold stepWeekly
  split
  · dsimp only
    ring
  · dsimp only
    rw [List.map_append, List.sum_append]
    dsimp only [flushWeek, List.map_cons, List.map_nil, List.sum_cons, List.sum_nil]
    ring

theorem stepWeekly_week_volume (st : TrendState) (stat : TimeStat) :
    ((stepWeekly st stat).weekly.map WeekBucket.volume).sum + (stepWeekly st stat).curWeek.volume
      = (st.weekly.map WeekBucket.volume).sum + st.curWeek.volume + stat.totalVolume := by
  unfold stepWeekly
  split
  · dsimp only
    ring
  · dsimp only
    rw [List.map_append, List.sum_append]
    dsimp only [flushWeek, List.map_cons, List.map_nil, List.sum_cons, List.sum_nil]
    ring

theorem stepMonthly_month_count (st : TrendState) (stat : TimeStat) :
    ((stepMonthly st stat).monthly.map MonthBucket.count).sum + (stepMonthly st stat).curMonth.count
      = (st.monthly.map MonthBucket.count).sum + st.curMonth.count + stat.count := by
  unfold stepMonthly
  split
  · dsimp only
    ring
  · dsimp only
    rw [List.map_append, List.sum_append]
    dsimp only [flushMonth, List.map_cons, List.map_nil, List.sum_cons, List.sum_nil]
    ring

theorem stepMonthly_month_volume (st : TrendState) (stat : TimeStat) :
    ((stepMonthly st stat).monthly.map MonthBucket.volume).sum
        + (stepMonthly st stat).curMonth.volume
      = (st.monthly.map MonthBucket.volume).sum + st.curMonth.volume + stat.totalVolume := by
  unfold stepMonthly
  split
  · dsimp only
    ring
  · dsimp only
    rw [List.map_append, List.sum_append]
    dsimp only [flushMonth, List.map_cons, List.map_nil, List.sum_cons, List.sum_nil]
    ring

theorem trendStep_week_count (st : TrendState) (stat : TimeStat) :
    ((trendStep st stat).weekly.map WeekBucket.count).sum + (trendStep st stat).curWeek.count
      = (st.weekly.map WeekBucket.count).sum + st.curWeek.count + stat.count := by
  unfold trendStep
  rw [stepMonthly_weekly, stepMonthly_curWeek]
  exact stepWeekly_week_count st stat

theorem trendStep_week_volume (st : TrendState) (stat : TimeStat) :
    ((trendStep st stat).weekly.map WeekBucket.volume).sum + (trendStep st stat).curWeek.volume
      = (st.weekly.map WeekBucket.volume).sum + st.curWeek.volume + stat.totalVolume := by
  unfold trendStep
  rw [stepMonthly_weekly, stepMonthly_curWeek]
  exact stepWeekly_week_volume st stat

theorem trendStep_month_count (st : TrendState) (stat : TimeStat) :
    ((trendStep st stat).monthly.map MonthBucket.count).sum + (trendStep st stat).curMonth.count
      = (st.monthly.map MonthBucket.count).sum + st.curMonth.count + stat.count := by
  unfold trendStep
  rw [show (stepMonthly (stepWeekly st stat) stat).monthly.map MonthBucket.count
      = (stepMonthly (stepWeekly st stat) stat).monthly.map MonthBucket.count from rfl]
  have hx := stepMonthly_month_count (stepWeekly st stat) stat
  rw [stepWeekly_monthly, stepWeekly_curMonth] at hx
  exact hx

theorem trendStep_month_volume (st : TrendState) (stat : TimeStat) :
    ((trendStep st stat).monthly.map MonthBucket.volume).sum + (trendStep st stat).curMonth.volume
      = (st.monthly.map MonthBucket.volume).sum + st.curMonth.volume + stat.totalVolume := by
  unfold trendStep
  have hx := stepMonthly_month_volume (stepWeekly st stat) stat
  rw [stepWeekly_monthly, stepWeekly_curMonth] at hx
  exact hx

theorem foldl_week_count (l : List TimeStat) :
    ∀ st : TrendState,
    ((l.foldl trendStep st).weekly.map WeekBucket.count).sum
        + (l.foldl trendStep st).curWeek.count
      = (st.weekly.map WeekBucket.count).sum + st.curWeek.count
        + (l.map TimeStat.count).sum := by
  induction l with
  | nil =>
      intro st
      simp
  | cons a l ih =>
      intro st
      rw [List.foldl_cons, ih (trendStep st a), trendStep_week_count]
      simp only [List.map_cons, List.sum_cons]
      ring

theorem foldl_week_volume (l : List TimeStat) :
    ∀ st : TrendState,
    ((l.foldl trendStep st).weekly.map WeekBucket.volume).sum
        + (l.foldl trendStep st).curWeek.volume
      = (st.weekly.map WeekBucket.volume).sum + st.curWeek.volume
        + (l.map TimeStat.totalVolume).sum := by
  induction l with
  | nil =>
      intro st
      simp
  | cons a l ih =>
      intro st
      rw [List.foldl_cons, ih (trendStep st a), trendStep_week_volume]
      simp only [List.map_cons, List.sum_cons]
      ring

theorem foldl_month_count (l : List TimeStat) :
    ∀ st : TrendState,
    ((l.foldl trendStep st).monthly.map MonthBucket.count).sum
        + (l.foldl trendStep st).curMonth.count
      = (st.monthly.map MonthBucket.count).sum + st.curMonth.count
        + (l.map TimeStat.count).sum := by
  induction l with
  | nil =>
      intro st
      simp
  | cons a l ih =>
      intro st
      rw [List.foldl_cons, ih (trendStep st a), trendStep_month_count]
      simp only [List.map_cons, List.sum_cons]
      ring

theorem foldl_month_volume (l : List TimeStat) :
    ∀ st : TrendState,
    ((l.foldl trendStep st).monthly.map MonthBucket.volume).sum
        + (l.foldl trendStep st).curMonth.volume
      = (st.monthly.map MonthBucket.volume).sum + st.curMonth.volume
        + (l.map TimeStat.totalVolume).sum := by
  induction l with
  | nil =>
      intro st
      simp
  | cons a l ih =>
      intro st
      rw [List.foldl_cons, ih (trendStep st a), trendStep_month_volume]
      simp only [List.map_cons, List.sum_cons]
      ring

theorem trendStep_curWeek_days_ne (st : TrendState) (stat : TimeStat) :
    (trendStep st stat).curWeek.days ≠ [] := by
  unfold trendStep
  rw [stepMonthly_curWeek]
  unfold stepWeekly
  split <;> simp

theorem trendStep_curMonth_days_ne (st : TrendState) (stat : TimeStat) :
    (trendStep st stat).curMonth.days ≠ [] := by
  unfold trendStep stepMonthly
  split <;> simp

theorem foldl_curWeek_days_ne (l : List TimeStat) :
    ∀ st : TrendState, st.curWeek.days ≠ [] → (l.foldl trendStep st).curWeek.days ≠ [] := by
  induction l with
  | nil =>
      intro st h
      exact h
  | cons a l ih =>
      intro st _
      rw [List.foldl_cons]
      exact ih (trendStep st a) (trendStep_curWeek_days_ne st a)

theorem foldl_curMonth_days_ne (l : List TimeStat) :
    ∀ st : TrendState, st.curMonth.days ≠ [] → (l.foldl trendStep st).curMonth.days ≠ [] := by
  induction l with
  | nil =>
      intro st h
      exact h
  | cons a l ih =>
      intro st _
      rw [List.foldl_cons]
      exact ih (trendStep st a) (trendStep_curMonth_days_ne st a)

theorem dateLe_trans (a b c : TimeStat) (hab : dateLe a b = true) (hbc : dateLe b c = true) :
    dateLe a c = true := by
  simp only [dateLe, decide_eq_true_eq] at hab hbc ⊢
  exact le_trans hab hbc

theorem dateLe_total (a b : TimeStat) : (dateLe a b || dateLe b a) = true := by
  simp only [dateLe, Bool.or_eq_true, decide_eq_true_eq]
  exact le_total _ _

/-- C7: `calculateTrends` returns a daily series sorted ascending by date,
and both the weekly and the monthly buckets conserve the daily totals of
count and volume — no day is dropped or counted twice. -/
theorem claim_C7 (timeStats : List TimeStat) :
    (calculateTrends timeStats).daily.Pairwise (fun a b => a.date.ms ≤ b.date.ms) ∧
    ((calculateTrends timeStats).weekly.map WeekBucket.count).sum
      = ((calculateTrends timeStats).daily.map DailyEntry.count).sum ∧
    ((calculateTrends timeStats).weekly.map WeekBucket.volume).sum
      = ((calculateTrends timeStats).daily.map DailyEntry.volume).sum ∧
    ((calculateTrends timeStats).monthly.map MonthBucket.count).sum
      = ((calculateTrends timeStats).daily.map DailyEntry.count).sum ∧
    ((calculateTrends timeStats).monthly.map MonthBucket.volume).sum
      = ((calculateTrends timeStats).daily.map DailyEntry.volume).sum := by
  have hsorted := @List.sorted_mergeSort TimeStat dateLe dateLe_trans dateLe_total timeStats
  have hdailyC : ((calculateTrends timeStats).daily.map DailyEntry.count).sum
      = ((timeStats.mergeSort dateLe).map TimeStat.count).sum := by
    unfold calculateTrends trendsFinish
    dsimp only
    rw [List.map_map]
    rfl
  have hdailyV : ((calculateTrends timeStats).daily.map DailyEntry.volume).sum
      = ((timeStats.mergeSort dateLe).map TimeStat.totalVolume).sum := by
    unfold calculateTrends trendsFinish
    dsimp only
    rw [List.map_map]
    rfl
  refine ⟨?_, ?_, ?_, ?_, ?_⟩
  · unfold calculateTrends trendsFinish
    dsimp only
    exact List.Pairwise.map dailyEntryOf
      (fun a b hab => by
        simpa [dailyEntryOf, statDate, dateLe] using hab) hsorted
  · rw [hdailyC]
    unfold calculateTrends trendsFinish
    dsimp only
    cases hl : timeStats.mergeSort dateLe with
    | nil => simp [emptyAcc]
    | cons a rest =>
        have hdays : ((a :: rest).foldl trendStep ⟨[], [], emptyAcc, emptyAcc⟩).curWeek.days
            ≠ [] := by
          rw [List.foldl_cons]
          exact foldl_curWeek_days_ne rest _ (trendStep_curWeek_days_ne _ a)
        rw [if_pos (by simpa using List.length_pos.mpr hdays)]
        rw [List.map_append, List.sum_append]
        have hfold := foldl_week_count (a :: rest) ⟨[], [], emptyAcc, emptyAcc⟩
        simp only [List.map_nil, List.sum_nil, List.map_cons, List.sum_cons, zero_add] at hfold
        rw [show emptyAcc.count = (0 : Int) from rfl, zero_add] at hfold
        dsimp only [flushWeek, List.map_cons, List.map_nil, List.sum_cons, List.sum_nil]
        omega
  · rw [hdailyV]
    unfold calculateTrends trendsFinish
    dsimp only
    cases hl : timeStats.mergeSort dateLe with
    | nil => simp [emptyAcc]
    | cons a rest =>
        have hdays : ((a :: rest).foldl trendStep ⟨[], [], emptyAcc, emptyAcc⟩).curWeek.days
            ≠ [] := by
          rw [List.foldl_cons]
          exact foldl_curWeek_days_ne rest _ (trendStep_curWeek_days_ne _ a)
        rw [if_pos (by simpa using List.length_pos.mpr hdays)]
        rw [List.map_append, List.sum_append]
        have hfold := foldl_week_volume (a :: rest) ⟨[], [], emptyAcc, emptyAcc⟩
        simp only [List.map_nil, List.sum_nil, List.map_cons, List.sum_cons, zero_add] at hfold
        rw [show emptyAcc.volume = (0 : Rat) from rfl, zero_add] at hfold
        dsimp only [flushWeek, List.map_cons, List.map_nil, List.sum_cons, List.sum_nil]
        linarith
  · rw [hdailyC]
    unfold calculateTrends trendsFinish
    dsimp only
    cases hl : timeStats.mergeSort dateLe with
    | nil => simp [emptyAcc]
    | cons a rest =>
        have hdays : ((a :: rest).foldl trendStep ⟨[], [], emptyAcc, emptyAcc⟩).curMonth.days
            ≠ [] := by
          rw [List.foldl_cons]
          exact foldl_curMonth_days_ne rest _ (trendStep_curMonth_days_ne _ a)
        rw [if_pos (by simpa using List.length_pos.mpr hdays)]
        rw [List.map_append, List.sum_append]
        have hfold := foldl_month_count (a :: rest) ⟨[], [], emptyAcc, emptyAcc⟩
        simp only [List.map_nil, List.sum_nil, List.map_cons, List.sum_cons, zero_add] at hfold
        rw [show emptyAcc.count = (0 : Int) from rfl, zero_add] at hfold
        dsimp only [flushMonth, List.map_cons, List.map_nil, List.sum_cons, List.sum_nil]
        omega
  · rw [hdailyV]
    unfold calculateTrends trendsFinish
    dsimp only
    cases hl : timeStats.mergeSort dateLe with
    | nil => simp [emptyAcc]
    | cons a rest =>
        have hdays : ((a :: rest).foldl trendStep ⟨[], [], emptyAcc, emptyAcc⟩).curMonth.days
            ≠ [] := by
          rw [List.foldl_cons]
          exact foldl_curMonth_days_ne rest _ (trendStep_curMonth_days_ne _ a)
        rw [if_pos (by simpa using List.length_pos.mpr hdays)]
        rw [List.map_append, List.sum_append]
        have hfold := foldl_month_volume (a :: rest) ⟨[], [], emptyAcc, emptyAcc⟩
        simp only [List.map_nil, List.sum_nil, List.map_cons, List.sum_cons, zero_add] at hfold
        rw [show emptyAcc.volume = (0 : Rat) from rfl, zero_add] at hfold
        dsimp only [flushMonth, List.map_cons, List.map_nil, List.sum_cons, List.sum_nil]
        linarith

end MediClean
